import Mathlib

set_option maxHeartbeats 1000000

/-!
Verification development for the obsidian-kanban multi-instance state
synchronization and cross-surface drag coordination engine.

The definitions below embed the drop handler of `src/DragDropApp.tsx`
(`handleDrop`), the instance view-state accessors of `src/KanbanEmbed.tsx`
(`KanbanEmbed.getViewState` / `setViewState`) and of
`src/livePreview/KanbanViewPlugin.ts` (`BoardRenderer.getViewState` /
`setViewState`), and the Scope ID string contract
`<discriminant>:::<documentPath>`.

Helper functions of the repository that are not part of the provided source
files (the `dnd/util/data` tree operations `getEntityFromPath`, `insertEntity`,
`removeEntity`, `moveEntity`, `updateEntity`, the helper
`maybeCompleteForMove`, and the `StateManager` accessors `getSetting`,
`getNewItem`) are modelled from the specification; each such definition
carries a doc comment starting with `Modelled from the spec:`.

State mutation is modelled by a trace of registry calls: `handleDropCalls`
reproduces the control flow of `handleDrop` and emits the list of
`StateManager.setState` invocations the handler issues, and `applyCall`
executes the updater each such call carries, exactly as written in the
source.  `handleDropRun` composes the two.
-/

/-!
Section: JavaScript `String.prototype.split(':::')`.

`handleDrop` recovers the backing document of a drag/drop entity with
`const [, sourceFile] = entity.scopeId.split(':::')` (DragDropApp.tsx lines
104-105), i.e. element 1 of the split result.  The splitter is modelled on
character lists: it scans left to right and breaks at each non-overlapping
occurrence of the three-character separator `:::`, exactly as the JavaScript
runtime does.
-/

/-- Accumulator-based splitter on the separator `:::`; `acc` holds the
current segment reversed. -/
def splitSepAux (acc : List Char) : List Char → List (List Char)
  | ':' :: ':' :: ':' :: rest => acc.reverse :: splitSepAux [] rest
  | c :: rest => splitSepAux (c :: acc) rest
  | [] => [acc.reverse]

/-- JavaScript `s.split(':::')` on strings. -/
def jsSplitSep (s : String) : List String :=
  (splitSepAux [] s.data).map fun cs => String.mk cs

/-- Embedding of `const [, sourceFile] = scopeId.split(':::')` — element 1 of
the split result, `none` when there is no element 1 (JS `undefined`). -/
def scopeFile (s : String) : Option String := (jsSplitSep s)[1]?

/-- Whether a character list contains `:::` as a contiguous substring. -/
def hasSep : List Char → Bool
  | ':' :: ':' :: ':' :: _ => true
  | _ :: rest => hasSep rest
  | [] => false

/-- Whether a character list ends with the character `':'`. -/
def endsColon (l : List Char) : Bool :=
  match l.getLast? with
  | some ':' => true
  | _ => false

/-!
Section: data model.

Board / Lane / Item as described in the spec's data model (§3): a Board is an
ordered sequence of Lanes plus board-level settings; a Lane is an ordered
sequence of Items with a title and a "mark items complete" flag; an Item is a
leaf with title text, a checked flag and a completion-marker character.  Only
the settings the drop handler consults (`list-collapse` and
`new-card-insertion-method`) are represented.
-/

structure ItemData where
  title : String
  checked : Bool
  checkChar : Char
  deriving DecidableEq, Repr

structure Item where
  id : String
  data : ItemData
  deriving DecidableEq, Repr

structure LaneData where
  title : String
  shouldMarkItemsComplete : Bool
  sorted : Option Bool
  deriving DecidableEq, Repr

structure Lane where
  id : String
  data : LaneData
  children : List Item
  deriving DecidableEq, Repr

structure BoardSettings where
  listCollapse : Option (List Bool)
  newCardInsertionMethod : Option String
  deriving DecidableEq, Repr

structure Board where
  id : String
  children : List Lane
  settings : BoardSettings
  deriving DecidableEq, Repr

/-- Nodes of the board tree (`Nestable` in the source). -/
inductive Entity where
  | board (b : Board)
  | lane (l : Lane)
  | item (i : Item)
  deriving DecidableEq, Repr

def Entity.id : Entity → String
  | .board b => b.id
  | .lane l => l.id
  | .item i => i.id

def Entity.isLane : Entity → Bool
  | .lane _ => true
  | _ => false

/-- JS `entity.children.length` for a resolved parent node. -/
def Entity.childCount : Entity → Nat
  | .board b => b.children.length
  | .lane l => l.children.length
  | .item _ => 0

/-- JS `entity?.data?.shouldMarkItemsComplete` coerced to boolean — only a
Lane's data carries the flag, every other access yields `undefined`/false. -/
def Entity.shouldMarkItemsComplete : Entity → Bool
  | .lane l => l.data.shouldMarkItemsComplete
  | _ => false

/-- JS `entity?.data?.sorted !== undefined` — only a Lane's data can carry the
manual-sort marker. -/
def Entity.sortedDefined : Entity → Bool
  | .lane l => l.data.sorted.isSome
  | _ => false

/-!
Section: tree operations.

The functions `getEntityFromPath`, `insertEntity`, `removeEntity`,
`moveEntity` and `updateEntity` live in `src/dnd/util/data.ts`, which is not
among the provided sources; they are modelled from the spec's description of
Entity Paths ("an ordered sequence of integer indices locating an Entity
within the Board tree") and of the move protocol.  JavaScript `splice`
semantics (indices clamped for insertion; out-of-range deletion removes
nothing) are kept.
-/

/-- JS `arr.splice(i, 0, ...xs)` — insertion at `i`, clamped to the length. -/
def jsSpliceIns (l : List α) (i : Nat) (xs : List α) : List α :=
  l.take i ++ xs ++ l.drop i

/-- JS `arr.splice(i, 1)` — removal at `i`; removes nothing out of range. -/
def jsSpliceDel (l : List α) (i : Nat) : List α :=
  l.take i ++ l.drop (i + 1)

/-- Modelled from the spec: `getEntityFromPath` of `src/dnd/util/data.ts`.
An Entity Path addresses the Board (`[]`), a Lane (`[i]`) or an Item
(`[i, j]`); an unresolvable path yields `undefined`. -/
def getEntityFromPath (b : Board) : List Nat → Option Entity
  | [] => some (.board b)
  | [i] => (b.children[i]?).map .lane
  | [i, j] => ((b.children[i]?).bind fun l => l.children[j]?).map .item
  | _ => none

/-- Apply `f` to the lane at index `i`; `none` when the lane does not exist
(the JS code would dereference `undefined` and throw). -/
def modifyLane (lanes : List Lane) (i : Nat) (f : Lane → Lane) : Option (List Lane) :=
  match lanes, i with
  | [], _ => none
  | l :: ls, 0 => some (f l :: ls)
  | l :: ls, n + 1 => (modifyLane ls n f).map (l :: ·)

/-- Coerce a list of entities to lanes; `none` on a type mismatch. -/
def lanesOf? : List Entity → Option (List Lane)
  | [] => some []
  | .lane l :: es => (lanesOf? es).map (l :: ·)
  | _ => none

/-- Coerce a list of entities to items; `none` on a type mismatch. -/
def itemsOf? : List Entity → Option (List Item)
  | [] => some []
  | .item i :: es => (itemsOf? es).map (i :: ·)
  | _ => none

/-- Modelled from the spec: `insertEntity` of `src/dnd/util/data.ts` — splice
the given entities into the parent addressed by `path.dropLast`, at child
index `path.last`.  `none` models the JS exception when the parent does not
exist or the entities do not fit the addressed level. -/
def insertEntity (b : Board) (path : List Nat) (es : List Entity) : Option Board :=
  match path with
  | [i] => (lanesOf? es).map fun ls => { b with children := jsSpliceIns b.children i ls }
  | [i, j] => (itemsOf? es).bind fun its =>
      (modifyLane b.children i fun l => { l with children := jsSpliceIns l.children j its }).map
        fun cs => { b with children := cs }
  | _ => none

/-- Modelled from the spec: `removeEntity` of `src/dnd/util/data.ts` — splice
the entity at `path` out of its parent.  `none` models the JS exception when
an intermediate parent does not exist. -/
def removeEntity (b : Board) (path : List Nat) : Option Board :=
  match path with
  | [i] => some { b with children := jsSpliceDel b.children i }
  | [i, j] =>
      (modifyLane b.children i fun l => { l with children := jsSpliceDel l.children j }).map
        fun cs => { b with children := cs }
  | _ => none

/-- Modelled from the spec: `getTaskStatusDone` of the inline-metadata parser
helpers — the "done" completion-marker character. -/
def taskStatusDone : Char := 'x'

/-- Modelled from the spec: `maybeCompleteForMove` of `src/components/helpers`
(§4.4 step 3) — completion-status adaptation for an Item move: if the
destination container marks its children complete-by-default, flip the item's
complete flag and marker to the done state; if the source is likewise
complete-by-default and the destination is not, reverse the effect.  The
item's stable id is untouched. -/
def maybeCompleteForMove (srcBoard : Board) (srcPath : List Nat) (dstBoard : Board)
    (dstPath : List Nat) (it : Item) : Item :=
  let dstParent := getEntityFromPath dstBoard dstPath.dropLast
  let srcParent := getEntityFromPath srcBoard srcPath.dropLast
  let dstComplete := (dstParent.map Entity.shouldMarkItemsComplete).getD false
  let srcComplete := (srcParent.map Entity.shouldMarkItemsComplete).getD false
  if dstComplete then
    { it with data := { it.data with checked := true, checkChar := taskStatusDone } }
  else if srcComplete then
    { it with data := { it.data with checked := false, checkChar := ' ' } }
  else it

/-- Destination-index adjustment of a same-parent move: moving forward past
the element's own old slot decrements the destination index by one (the same
adjustment the spec prescribes for the collapse-flag shift, §4.4 step 2). -/
def adjustDest (srcPath dstPath : List Nat) : List Nat :=
  if srcPath.dropLast = dstPath.dropLast ∧ srcPath.getLastD 0 < dstPath.getLastD 0 then
    dstPath.dropLast ++ [dstPath.getLastD 0 - 1]
  else dstPath

/-- Modelled from the spec: `moveEntity` of `src/dnd/util/data.ts` —
atomically relocate the entity at `src` to `dst` within one board, applying
the transform the caller supplies (completion adaptation for items). -/
def moveEntity (b : Board) (src dst : List Nat) (tr : Entity → Entity) : Option Board := do
  let e ← getEntityFromPath b src
  let b' ← removeEntity b src
  insertEntity b' (adjustDest src dst) [tr e]

/-- Modelled from the spec: the `updateEntity(..., { data: { $unset:
['sorted'] } })` call of the same-board branch — clear the manual-sort marker
of the lane at `path`. -/
def clearSortedAt (b : Board) (path : List Nat) : Board :=
  match path with
  | [i] =>
      match modifyLane b.children i (fun l => { l with data := { l.data with sorted := none } }) with
      | some cs => { b with children := cs }
      | none => b
  | _ => b

/-!
Section: counting.

Quantities the conservation claims are stated over: the total Item count of a
board and the number of occurrences of an id among the board's Lane and Item
ids.
-/

def totalItems (b : Board) : Nat := (b.children.map fun l => l.children.length).sum

def laneIds (l : Lane) : List String := l.id :: l.children.map Item.id

def boardIds (b : Board) : List String := (b.children.map laneIds).flatten

/-- Number of occurrences of the id `s` among the board's Lane and Item ids. -/
def countId (b : Board) (s : String) : Nat := (boardIds b).count s

/-- Number of Items carried by an entity (a Lane carries its children). -/
def Entity.itemCount : Entity → Nat
  | .board b => totalItems b
  | .lane l => l.children.length
  | .item _ => 1

/-- Occurrences of the id `s` within an entity (a Lane contributes its own id
and its children's ids). -/
def Entity.idOccurrences : Entity → String → Nat
  | .board b, s => countId b s
  | .lane l, s => (laneIds l).count s
  | .item i, s => ([i.id] : List String).count s

/-!
Section: instances and registry state.

An `Inst` models the `KanbanInstance` fields the drop handler touches: its
backing file and its local `viewSettings['list-collapse']` entry.  `St`
models the plugin's lookup tables: `stateManagers` (file → canonical Board),
`getKanbanInstance` (Scope ID → instance) and `getStateManagerFromScopeId`
(html-dnd view id → file).  The instance view-state accessors follow the
embed implementations in `src/KanbanEmbed.tsx`: `getViewState` falls back to
the board setting, and `setViewState` with a global updater applies the
updater only to this instance's own local copy.
-/

structure Inst where
  file : String
  localListCollapse : Option (List Bool)
  deriving DecidableEq, Repr

structure St where
  managers : String → Option Board
  instances : String → Option Inst
  htmlScope : String → Option String

/-- `StateManager.setState` lands the updater's result as the canonical board
of `file`. -/
def setMgr (st : St) (file : String) (b : Board) : St :=
  { st with managers := fun g => if g = file then some b else st.managers g }

/-- Embedding of `KanbanEmbed.getViewState('list-collapse')`:
`this.viewSettings[key] ?? stateManager?.getSetting(key)`. -/
def instGetListCollapse (st : St) (inst : Inst) : Option (List Bool) :=
  match inst.localListCollapse with
  | some v => some v
  | none => (st.managers inst.file).bind fun b => b.settings.listCollapse

/-- Embedding of `KanbanEmbed.setViewState('list-collapse', undefined, op)`:
the updater is applied to this instance's own local copy only
(`this.viewSettings[key] = globalUpdater(this.viewSettings[key])`).  When the
local copy is `undefined` the JS updater would throw spreading it;
`populateViewState` guarantees the key is populated before any drag, so the
`none` case (modelled as a no-op) is unreachable in the theorems below. -/
def instSetListCollapse (st : St) (scopeId : String) (op : List Bool → List Bool) : St :=
  { st with instances := fun s =>
      if s = scopeId then
        (st.instances s).map fun inst =>
          { inst with localListCollapse := inst.localListCollapse.map op }
      else st.instances s }

/-- Payload of `entity.getData()` as consumed by `handleDrop`: the entity
type, the drop target's accepted sort types, and the html-dnd fields. -/
structure DndData where
  type : String
  acceptsSort : Option (List String)
  viewId : String
  content : List String
  deriving DecidableEq, Repr

/-- A drag/drop entity as seen by `handleDrop`: its Scope ID, its resolved
path and its data payload. -/
structure DndEntity where
  scopeId : String
  path : List Nat
  data : DndData
  deriving DecidableEq, Repr

/-!
Section: the drop handler.

`handleDropCalls` reproduces `handleDrop` (DragDropApp.tsx lines 46-306) and
returns the list of `setState` registry calls the handler issues, in order.
Every lookup failure that makes the handler `return` early yields `[]`.
`applyCall` executes the updater of one registry call against the current
state, exactly as the corresponding `setState` callback is written in the
source.
-/

inductive MutKind where
  | htmlInsert (dropPath : List Nat) (items : List Item)
  | sameMove (scopeId : String) (dragPath finalDropPath : List Nat)
  | crossRemove (scopeId : String) (dragPath : List Nat) (entityId : String) (isLane : Bool)
  | crossInsert (dstScopeId srcScopeId : String) (dragPath finalDropPath : List Nat)
      (toInsert : Entity) (isLane : Bool)
  deriving DecidableEq, Repr

structure RegCall where
  file : String
  kind : MutKind
  deriving DecidableEq, Repr

/-- Modelled from the spec: `StateManager.getNewItem` plus the completion
adaptation of the html-dnd branch — a freshly created Item for a dropped
title, marked done when the destination container marks items complete. -/
def mkNewItem (title : String) (complete : Bool) : Item :=
  { id := "new:" ++ title
    data := { title := title, checked := complete
              checkChar := if complete then taskStatusDone else ' ' } }

/-- Embedding of `dropEntityData.acceptsSort &&
!dropEntityData.acceptsSort.includes(dragEntityData.type)` — the drop lands
"into" a container rather than "between" siblings. -/
def inDropAreaOf (dragData dropData : DndData) : Bool :=
  match dropData.acceptsSort with
  | some l => !(l.contains dragData.type)
  | none => false

/-- JS `(x || 'append')` on the setting value: `undefined` and the empty
string are falsy and default to `"append"`. -/
def jsOrAppend : Option String → String
  | none => "append"
  | some v => if v = "" then "append" else v

/-- Same-board final drop path: `inDropArea ? [...dropPath, 0] : dropPath`. -/
def sameFinalDropPath (inArea : Bool) (dropPath : List Nat) : List Nat :=
  if inArea then dropPath ++ [0] else dropPath

/-- Cross-board final drop path (DragDropApp.tsx lines 220-232): when
dropping into a container, append at `parent.children.length` if the
destination's `new-card-insertion-method` setting is `'append'` (or falsy),
else prepend at index 0.  `none` models the JS exception dereferencing
`parent.children` when the parent does not resolve. -/
def crossFinalDropPath (destinationBoard : Board) (inArea : Bool) (dropPath : List Nat) :
    Option (List Nat) :=
  if inArea then
    let parent := getEntityFromPath destinationBoard dropPath
    let shouldAppend := jsOrAppend destinationBoard.settings.newCardInsertionMethod = "append"
    if shouldAppend then
      match parent with
      | none => none
      | some p => some (dropPath ++ [p.childCount])
    else some (dropPath ++ [0])
  else some dropPath

/-- The transform passed to `moveEntity` by the same-board branch: apply
completion adaptation to Items, leave other entities untouched. -/
def sameMoveTransform (board : Board) (dragPath finalDropPath : List Nat) : Entity → Entity
  | .item it => .item (maybeCompleteForMove board dragPath board finalDropPath it)
  | e => e

/-- The cross-board `toInsert` computation (DragDropApp.tsx lines 235-253):
completion adaptation for Items, identity for Lanes. -/
def crossToInsert (sourceBoard destinationBoard : Board) (dragPath finalDropPath : List Nat) :
    Entity → Entity
  | .item it =>
      .item (maybeCompleteForMove sourceBoard dragPath destinationBoard finalDropPath it)
  | e => e

/-- Embedding of the `dragEntity.scopeId === 'htmldnd'` branch (DragDropApp.tsx
lines 52-97): resolve the state manager from the drag data's view id, build
new items from the dropped content, and issue a single insertion. -/
def htmlBranch (st : St) (dragEntity dropEntity : DndEntity) : List RegCall :=
  match st.htmlScope dragEntity.data.viewId with
  | none => []
  | some file =>
    match st.managers file with
    | none => []
    | some board =>
      let dropPath := dropEntity.path
      let destinationParent := getEntityFromPath board dropPath.dropLast
      let isComplete := (destinationParent.map Entity.shouldMarkItemsComplete).getD false
      [⟨file, .htmlInsert dropPath (dragEntity.data.content.map (mkNewItem · isComplete))⟩]

/-- Embedding of the same-board branch head (DragDropApp.tsx lines 111-120):
resolve the one instance and its registry, then issue one `setState`. -/
def sameBranch (st : St) (dragEntity dropEntity : DndEntity) : List RegCall :=
  match st.instances dragEntity.scopeId with
  | none => []
  | some inst =>
    match st.managers inst.file with
    | none => []
    | some _ =>
      let inArea := inDropAreaOf dragEntity.data dropEntity.data
      [⟨inst.file, .sameMove dragEntity.scopeId dragEntity.path
          (sameFinalDropPath inArea dropEntity.path)⟩]

/-- Embedding of the cross-board branch head (DragDropApp.tsx lines 194-253):
resolve both instances and registries, snapshot the source board, locate the
entity and record its id, precompute the final drop path and the entity to
insert, then issue the removal call followed by the insertion call. -/
def crossBranch (st : St) (dragEntity dropEntity : DndEntity) : List RegCall :=
  match st.instances dragEntity.scopeId, st.instances dropEntity.scopeId with
  | some sourceInstance, some destinationInstance =>
    match st.managers sourceInstance.file, st.managers destinationInstance.file with
    | some sourceBoard, some destinationBoard =>
      match getEntityFromPath sourceBoard dragEntity.path with
      | none => []
      | some entity =>
        let inArea := inDropAreaOf dragEntity.data dropEntity.data
        match crossFinalDropPath destinationBoard inArea dropEntity.path with
        | none => []
        | some finalDropPath =>
          let toInsert :=
            crossToInsert sourceBoard destinationBoard dragEntity.path finalDropPath entity
          [⟨sourceInstance.file,
              .crossRemove dragEntity.scopeId dragEntity.path entity.id entity.isLane⟩,
            ⟨destinationInstance.file,
              .crossInsert dropEntity.scopeId dragEntity.scopeId dragEntity.path finalDropPath
                toInsert entity.isLane⟩]
    | _, _ => []
  | _, _ => []

/-- The registry calls `handleDrop` issues for a drop, in order. -/
def handleDropCalls (st : St) (dragEntity dropEntity : DndEntity) : List RegCall :=
  if dragEntity.scopeId = "htmldnd" then htmlBranch st dragEntity dropEntity
  else if scopeFile dragEntity.scopeId = scopeFile dropEntity.scopeId then
    sameBranch st dragEntity dropEntity
  else crossBranch st dragEntity dropEntity

/-- The same-board Lane collapse shift: `newState.splice(to, 0,
newState.splice(from, 1)[0])` on a copy of the array.  The `none` arm stands
for the out-of-range JS read producing `undefined`; the in-range behavior is
the one exercised below. -/
def collapseShiftOp (f t : Nat) (l : List Bool) : List Bool :=
  match l[f]? with
  | some v => jsSpliceIns (jsSpliceDel l f) t [v]
  | none => jsSpliceIns l t [false]

/-- Embedding of the same-board `setState` updater (DragDropApp.tsx lines
120-190): move the entity; for a Lane move, shift the collapse flags in the
instance's view state and in the board settings; otherwise clear the
destination lane's manual-sort marker when present. -/
def sameMoveApply (st : St) (file scopeId : String) (inst : Inst) (board : Board)
    (dragPath finalDropPath : List Nat) : St :=
  let entity := getEntityFromPath board dragPath
  let newBoard :=
    (moveEntity board dragPath finalDropPath (sameMoveTransform board dragPath finalDropPath)).getD
      board
  if (entity.map Entity.isLane).getD false then
    let f := dragPath.getLastD 0
    let t0 := finalDropPath.getLastD 0
    let t := if f < t0 then t0 - 1 else t0
    let collapsedState := instGetListCollapse st inst
    let st1 := instSetListCollapse st scopeId (collapseShiftOp f t)
    match collapsedState with
    | some cs =>
        setMgr st1 file
          { newBoard with settings :=
              { newBoard.settings with listCollapse := some (collapseShiftOp f t cs) } }
    | none => st1
  else
    let destinationParentPath := finalDropPath.dropLast
    let destinationParent := getEntityFromPath board destinationParentPath
    if (destinationParent.map Entity.sortedDefined).getD false then
      setMgr st file (clearSortedAt newBoard destinationParentPath)
    else setMgr st file newBoard

/-- Embedding of the cross-board source-removal `setState` updater
(DragDropApp.tsx lines 258-282): re-verify the entity at the recorded path
still has the recorded id; on mismatch, warn and return the board unchanged;
otherwise remove it (removing the collapse-flag entry too for a Lane). -/
def crossRemoveApply (st : St) (file scopeId : String) (board : Board) (dragPath : List Nat)
    (entityId : String) (isLane : Bool) : St :=
  match getEntityFromPath board dragPath with
  | none => setMgr st file board
  | some currentEntity =>
    if currentEntity.id ≠ entityId then setMgr st file board
    else
      let removed := (removeEntity board dragPath).getD board
      if isLane then
        match st.instances scopeId with
        | none => setMgr st file removed
        | some inst =>
          let collapsedState := instGetListCollapse st inst
          let op := fun (l : List Bool) => jsSpliceDel l (dragPath.getLastD 0)
          let st1 := instSetListCollapse st scopeId op
          match collapsedState with
          | some cs =>
              setMgr st1 file
                { removed with settings :=
                    { removed.settings with listCollapse := some (op cs) } }
          | none => st1
      else setMgr st file removed

/-- The `console.warn` guard of the cross-board removal updater: the entity
at the recorded path is gone or no longer carries the recorded id. -/
def crossRemoveWarns (board : Board) (dragPath : List Nat) (entityId : String) : Bool :=
  match getEntityFromPath board dragPath with
  | none => true
  | some currentEntity => currentEntity.id ≠ entityId

/-- Embedding of the cross-board destination-insertion `setState` updater
(DragDropApp.tsx lines 285-303): insert the captured entity; for a Lane,
transplant the collapse-flag value read from the source instance into the
destination instance's array and the destination board settings. -/
def crossInsertApply (st : St) (file dstScopeId srcScopeId : String) (board : Board)
    (dragPath finalDropPath : List Nat) (toInsert : Entity) (isLane : Bool) : St :=
  let inserted := (insertEntity board finalDropPath [toInsert]).getD board
  if isLane then
    match st.instances dstScopeId with
    | none => setMgr st file inserted
    | some destInst =>
      let collapsedState := instGetListCollapse st destInst
      let v := (((st.instances srcScopeId).bind fun si => instGetListCollapse st si).bind
          fun l => l[dragPath.getLastD 0]?).getD false
      let op := fun (l : List Bool) => jsSpliceIns l (finalDropPath.getLastD 0) [v]
      let st1 := instSetListCollapse st dstScopeId op
      match collapsedState with
      | some cs =>
          setMgr st1 file
            { inserted with settings :=
                { inserted.settings with listCollapse := some (op cs) } }
      | none => st1
  else setMgr st file inserted

/-- Execute one registry call against the current state. -/
def applyCall (st : St) (call : RegCall) : St :=
  match st.managers call.file with
  | none => st
  | some board =>
    match call.kind with
    | .htmlInsert dropPath items =>
        setMgr st call.file ((insertEntity board dropPath (items.map .item)).getD board)
    | .sameMove scopeId dragPath finalDropPath =>
        match st.instances scopeId with
        | none => st
        | some inst => sameMoveApply st call.file scopeId inst board dragPath finalDropPath
    | .crossRemove scopeId dragPath entityId isLane =>
        crossRemoveApply st call.file scopeId board dragPath entityId isLane
    | .crossInsert dstScopeId srcScopeId dragPath finalDropPath toInsert isLane =>
        crossInsertApply st call.file dstScopeId srcScopeId board dragPath finalDropPath toInsert
          isLane

/-- Issue and execute all registry calls of one drop. -/
def handleDropRun (st : St) (dragEntity dropEntity : DndEntity) : St :=
  (handleDropCalls st dragEntity dropEntity).foldl applyCall st

/-!
Section: split lemmas and the Scope ID round-trip (claim C8).
-/

theorem splitSepAux_cons (acc : List Char) (c : Char) (rest : List Char) :
    splitSepAux acc (c :: rest) =
      if c = ':' ∧ rest.take 2 = [':', ':']
      then acc.reverse :: splitSepAux [] (rest.drop 2)
      else splitSepAux (c :: acc) rest := by
  rw [splitSepAux.eq_def]
  split
  · rename_i rest' heq
    injection heq with h1 h2
    subst h1 h2
    simp
  · rename_i c' rest' hne heq
    injection heq with h1 h2
    subst h1 h2
    rw [if_neg]
    rintro ⟨rfl, ht⟩
    cases rest with
    | nil => simp at ht
    | cons a b =>
      cases b with
      | nil => simp at ht
      | cons a2 b2 =>
        simp only [List.take, List.cons.injEq] at ht
        obtain ⟨rfl, rfl, -⟩ := ht
        exact hne b2 rfl rfl
  · rename_i heq
    exact absurd heq (by simp)

theorem hasSep_cons (c : Char) (rest : List Char) :
    hasSep (c :: rest) =
      (decide (c = ':' ∧ rest.take 2 = [':', ':']) || hasSep rest) := by
  rw [hasSep.eq_def]
  split
  · rename_i rest' heq
    injection heq with h1 h2
    subst h1 h2
    simp
  · rename_i c' rest' hne heq
    injection heq with h1 h2
    subst h1 h2
    have hn : ¬(c = ':' ∧ rest.take 2 = [':', ':']) := by
      rintro ⟨rfl, ht⟩
      cases rest with
      | nil => simp at ht
      | cons a b =>
        cases b with
        | nil => simp at ht
        | cons a2 b2 =>
          simp only [List.take, List.cons.injEq] at ht
          obtain ⟨rfl, rfl, -⟩ := ht
          exact hne b2 rfl rfl
    simp [hn]
  · rename_i heq
    exact absurd heq (by simp)

theorem splitSepAux_no_sep (p : List Char) (hp : hasSep p = false) :
    ∀ acc, splitSepAux acc p = [acc.reverse ++ p] := by
  induction p with
  | nil => intro acc; simp [splitSepAux]
  | cons c rest ih =>
    intro acc
    rw [hasSep_cons, Bool.or_eq_false_iff] at hp
    obtain ⟨h1, h2⟩ := hp
    rw [splitSepAux_cons, if_neg (by simpa using h1), ih h2]
    simp

theorem splitSepAux_boundary (d : List Char) (hd : hasSep d = false) (hd2 : endsColon d = false)
    (p : List Char) : ∀ acc, splitSepAux acc (d ++ ':' :: ':' :: ':' :: p) =
      (acc.reverse ++ d) :: splitSepAux [] p := by
  induction d with
  | nil => intro acc; simp [splitSepAux]
  | cons c d' ih =>
    intro acc
    rw [hasSep_cons, Bool.or_eq_false_iff] at hd
    obtain ⟨h1, h2⟩ := hd
    have hcond : ¬(c = ':' ∧ (d' ++ ':' :: ':' :: ':' :: p).take 2 = [':', ':']) := by
      rintro ⟨rfl, ht⟩
      cases d' with
      | nil => simp [endsColon] at hd2
      | cons a t =>
        cases t with
        | nil =>
          simp only [List.cons_append, List.nil_append, List.take, List.cons.injEq] at ht
          obtain ⟨rfl, -⟩ := ht
          simp [endsColon] at hd2
        | cons a2 t2 =>
          simp only [List.cons_append, List.take, List.cons.injEq] at ht
          obtain ⟨rfl, rfl, -⟩ := ht
          simp at h1
    have hd2' : endsColon d' = false := by
      cases d' with
      | nil => rfl
      | cons a t => simpa [endsColon, List.getLast?_cons_cons] using hd2
    rw [List.cons_append, splitSepAux_cons, if_neg hcond, ih h2 hd2']
    simp

/-- Claim C8 (corrected): the Scope ID round-trip.  For a discriminant `d`
that neither contains `:::` nor ends with a colon, and a document path `p`
that does not contain `:::`, splitting `d ++ ":::" ++ p` on `:::` yields
exactly the pair `(d, p)`, and the drop handler's extraction
(`split(':::')[1]`) recovers `p`.  The original claim allowed arbitrary `p`
and any `:::`-free `d`; `scopeId_roundTrip_counterexample` shows both extra
conditions are necessary. -/
theorem scopeId_roundTrip (d p : String) (hd : hasSep d.data = false)
    (hd2 : endsColon d.data = false) (hp : hasSep p.data = false) :
    jsSplitSep (d ++ ":::" ++ p) = [d, p] ∧ scopeFile (d ++ ":::" ++ p) = some p := by
  obtain ⟨ld⟩ := d
  obtain ⟨lp⟩ := p
  have hdata : (String.mk ld ++ ":::" ++ String.mk lp).data = ld ++ ':' :: ':' :: ':' :: lp := by
    show (ld ++ ":::".data) ++ lp = _
    simp [show (":::" : String).data = [':', ':', ':'] from rfl]
  constructor
  · unfold jsSplitSep
    rw [hdata, splitSepAux_boundary ld hd hd2 lp [], splitSepAux_no_sep lp hp []]
    simp
  · unfold scopeFile jsSplitSep
    rw [hdata, splitSepAux_boundary ld hd hd2 lp [], splitSepAux_no_sep lp hp []]
    simp

/-- Witness for `scopeId_roundTrip` at the concrete Scope ID
`embed-1:::Todo.md`. -/
theorem scopeId_roundTrip_witness :
    jsSplitSep ("embed-1" ++ ":::" ++ "Todo.md") = ["embed-1", "Todo.md"] ∧
      scopeFile ("embed-1" ++ ":::" ++ "Todo.md") = some "Todo.md" :=
  scopeId_roundTrip "embed-1" "Todo.md" (by decide) (by decide) (by decide)

/-- Counterexample to claim C8 as stated: with the `:::`-free discriminant
`embed-1` and the document path `b:::c`, the handler's extraction returns
`"b"`, not the path; and with the `:::`-free discriminant `a:` and path
`:b`, the split yields `["a", "::b"]`, not the pair `("a:", ":b")`. -/
theorem scopeId_roundTrip_counterexample :
    (hasSep "embed-1".data = false ∧
      scopeFile ("embed-1" ++ ":::" ++ "b:::c") = some "b" ∧ ("b" : String) ≠ "b:::c") ∧
    (hasSep "a:".data = false ∧ hasSep ":b".data = false ∧
      jsSplitSep ("a:" ++ ":::" ++ ":b") = ["a", "::b"] ∧
      jsSplitSep ("a:" ++ ":::" ++ ":b") ≠ ["a:", ":b"]) := by
  decide


/-!
Section: splice, path and counting lemmas.
-/

theorem jsSpliceIns_length (l : List α) (i : Nat) (xs : List α) :
    (jsSpliceIns l i xs).length = l.length + xs.length := by
  simp [jsSpliceIns]
  omega

theorem jsSpliceDel_length (l : List α) (i : Nat) (h : i < l.length) :
    (jsSpliceDel l i).length = l.length - 1 := by
  simp [jsSpliceDel]
  omega

theorem collapseShiftOp_length (f t : Nat) (l : List Bool) (h : f < l.length) :
    (collapseShiftOp f t l).length = l.length := by
  rw [collapseShiftOp]
  rw [List.getElem?_eq_getElem h]
  rw [jsSpliceIns_length, jsSpliceDel_length _ _ h]
  simp
  omega

theorem getElem?_decomp {α : Type} (l : List α) (i : Nat) (x : α) (h : l[i]? = some x) :
    l = l.take i ++ x :: l.drop (i + 1) := by
  rw [List.getElem?_eq_some] at h
  obtain ⟨hlt, hx⟩ := h
  conv_lhs => rw [← List.take_append_drop i l]
  congr 1
  rw [List.drop_eq_getElem_cons hlt, hx]

theorem modifyLane_some (lanes : List Lane) (i : Nat) (f : Lane → Lane) (l : Lane)
    (h : lanes[i]? = some l) :
    modifyLane lanes i f = some (lanes.take i ++ f l :: lanes.drop (i + 1)) := by
  induction lanes generalizing i with
  | nil => simp at h
  | cons a t ih =>
    cases i with
    | zero =>
      simp at h
      subst h
      simp [modifyLane]
    | succ n =>
      simp at h
      rw [modifyLane, ih n h]
      simp

theorem modifyLane_some_inv (lanes : List Lane) (i : Nat) (f : Lane → Lane) (ls' : List Lane)
    (h : modifyLane lanes i f = some ls') :
    ∃ l, lanes[i]? = some l ∧ ls' = lanes.take i ++ f l :: lanes.drop (i + 1) := by
  induction lanes generalizing i ls' with
  | nil => simp [modifyLane] at h
  | cons a t ih =>
    cases i with
    | zero =>
      rw [modifyLane] at h
      injection h with h
      exact ⟨a, by simp, by simp [← h]⟩
    | succ n =>
      rw [modifyLane] at h
      rw [Option.map_eq_some'] at h
      obtain ⟨ls'', h1, h2⟩ := h
      obtain ⟨l, hl1, hl2⟩ := ih n ls'' h1
      exact ⟨l, by simpa using hl1, by simp [← h2, hl2]⟩

theorem lanesOf?_some (es : List Entity) (ls : List Lane) (h : lanesOf? es = some ls) :
    es = ls.map .lane := by
  induction es generalizing ls with
  | nil => simp [lanesOf?] at h; simp [← h]
  | cons e t ih =>
    cases e with
    | lane l =>
      rw [lanesOf?] at h
      rw [Option.map_eq_some'] at h
      obtain ⟨ls', h1, h2⟩ := h
      subst h2
      simp [ih ls' h1]
    | board b => simp [lanesOf?] at h
    | item i => simp [lanesOf?] at h

theorem itemsOf?_some (es : List Entity) (its : List Item) (h : itemsOf? es = some its) :
    es = its.map .item := by
  induction es generalizing its with
  | nil => simp [itemsOf?] at h; simp [← h]
  | cons e t ih =>
    cases e with
    | item i =>
      rw [itemsOf?] at h
      rw [Option.map_eq_some'] at h
      obtain ⟨its', h1, h2⟩ := h
      subst h2
      simp [ih its' h1]
    | board b => simp [itemsOf?] at h
    | lane l => simp [itemsOf?] at h

theorem totalItems_congr (b1 b2 : Board) (h : b1.children = b2.children) :
    totalItems b1 = totalItems b2 := by
  unfold totalItems
  rw [h]

theorem countId_congr (b1 b2 : Board) (h : b1.children = b2.children) (s : String) :
    countId b1 s = countId b2 s := by
  unfold countId boardIds
  rw [h]

theorem count_map_id_eq (its : List Item) (s : String) :
    ((its.map Item.id).count s) = (its.map fun it => ([it.id] : List String).count s).sum := by
  induction its with
  | nil => simp
  | cons a t ih =>
    simp only [List.map_cons, List.count_cons, ih, List.sum_cons]
    simp [List.count_singleton']
    omega

theorem removeEntity_isSome (b : Board) (p : List Nat) (e : Entity)
    (he : getEntityFromPath b p = some e) (hp : p ≠ []) :
    ∃ b', removeEntity b p = some b' := by
  match p, hp with
  | [i], _ => exact ⟨_, rfl⟩
  | [i, j], _ =>
    rw [getEntityFromPath] at he
    rw [Option.map_eq_some'] at he
    obtain ⟨it, hit, -⟩ := he
    rw [Option.bind_eq_some] at hit
    obtain ⟨l, hl, -⟩ := hit
    rw [removeEntity, modifyLane_some _ _ _ _ hl]
    exact ⟨_, rfl⟩
  | i :: j :: k :: t, _ =>
    have hnone : getEntityFromPath b (i :: j :: k :: t) = none := rfl
    rw [hnone] at he
    exact absurd he (by simp)

theorem removeEntity_counts (b b' : Board) (p : List Nat) (e : Entity)
    (he : getEntityFromPath b p = some e) (hp : p ≠ [])
    (hr : removeEntity b p = some b') :
    totalItems b = totalItems b' + e.itemCount ∧
    ∀ s, countId b s = countId b' s + e.idOccurrences s := by
  match p, hp with
  | [i], _ =>
    rw [getEntityFromPath, Option.map_eq_some'] at he
    obtain ⟨l, hl, he⟩ := he
    subst he
    rw [removeEntity] at hr
    injection hr with hr
    subst hr
    have hdec := getElem?_decomp _ _ _ hl
    constructor
    · unfold totalItems
      dsimp only [jsSpliceDel]
      conv_lhs => rw [hdec]
      simp [Entity.itemCount]
      omega
    · intro s
      unfold countId boardIds
      dsimp only [jsSpliceDel]
      conv_lhs => rw [hdec]
      simp [Entity.idOccurrences, List.count_append]
      omega
  | [i, j], _ =>
    rw [getEntityFromPath, Option.map_eq_some'] at he
    obtain ⟨it, hit, he⟩ := he
    subst he
    rw [Option.bind_eq_some] at hit
    obtain ⟨l, hl, hit⟩ := hit
    rw [removeEntity, modifyLane_some _ _ _ _ hl] at hr
    injection hr with hr
    subst hr
    have hdecL := getElem?_decomp _ _ _ hl
    have hdecI := getElem?_decomp _ _ _ hit
    constructor
    · unfold totalItems
      dsimp only [jsSpliceDel]
      conv_lhs => rw [hdecL]
      have hlen : l.children.length =
          (l.children.take j).length + 1 + (l.children.drop (j + 1)).length := by
        conv_lhs => rw [hdecI]
        simp
        omega
      simp only [List.map_append, List.map_cons, List.sum_append, List.sum_cons,
        Entity.itemCount, List.length_append]
      omega
    · intro s
      have hlids : (laneIds l).count s =
          (laneIds { l with children := l.children.take j ++ l.children.drop (j + 1) }).count s +
            (if it.id = s then 1 else 0) := by
        unfold laneIds
        dsimp only
        conv_lhs => rw [hdecI]
        simp [List.count_cons, List.count_append]
        omega
      unfold countId boardIds
      dsimp only [jsSpliceDel]
      conv_lhs => rw [hdecL]
      simp only [List.map_append, List.map_cons, List.flatten_append, List.flatten_cons,
        List.count_append]
      rw [hlids]
      simp [Entity.idOccurrences, List.count_singleton']
      omega
  | i :: j :: k :: t, _ =>
    have hnone : getEntityFromPath b (i :: j :: k :: t) = none := rfl
    rw [hnone] at he
    exact absurd he (by simp)

theorem sum_take_drop {α : Type} (f : α → Nat) (l : List α) (i : Nat) :
    ((l.take i).map f).sum + ((l.drop i).map f).sum = (l.map f).sum := by
  rw [← List.sum_append, ← List.map_append, List.take_append_drop]

theorem count_take_drop (l : List Lane) (i : Nat) (s : String) :
    ((l.take i).map laneIds).flatten.count s + ((l.drop i).map laneIds).flatten.count s =
      (l.map laneIds).flatten.count s := by
  rw [← List.count_append, ← List.flatten_append, ← List.map_append, List.take_append_drop]

theorem count_flatten_eq_sum (L : List (List String)) (s : String) :
    L.flatten.count s = (L.map fun l => l.count s).sum := by
  induction L with
  | nil => simp
  | cons a t ih => simp [List.count_append, ih]

theorem insertEntity_counts (b b' : Board) (p : List Nat) (es : List Entity)
    (hi : insertEntity b p es = some b') :
    totalItems b' = totalItems b + (es.map Entity.itemCount).sum ∧
    ∀ s, countId b' s = countId b s + (es.map (Entity.idOccurrences · s)).sum := by
  match p with
  | [i] =>
    rw [insertEntity, Option.map_eq_some'] at hi
    obtain ⟨ls, hls, hb⟩ := hi
    subst hb
    have hes := lanesOf?_some _ _ hls
    subst hes
    constructor
    · unfold totalItems
      dsimp only [jsSpliceIns]
      have h1 := sum_take_drop (fun l => l.children.length) b.children i
      simp only [List.map_append, List.sum_append, List.map_map]
      simp only [Function.comp_def, Entity.itemCount]
      omega
    · intro s
      unfold countId boardIds
      dsimp only [jsSpliceIns]
      have h1 := count_take_drop b.children i s
      have h2 := count_flatten_eq_sum (ls.map laneIds) s
      simp only [List.map_map, Function.comp_def] at h2
      simp only [List.map_append, List.flatten_append, List.count_append, List.map_map]
      simp only [Function.comp_def, Entity.idOccurrences]
      omega
  | [i, j] =>
    rw [insertEntity, Option.bind_eq_some] at hi
    obtain ⟨its, hits, hi⟩ := hi
    rw [Option.map_eq_some'] at hi
    obtain ⟨cs, hml, hb⟩ := hi
    subst hb
    have hes := itemsOf?_some _ _ hits
    subst hes
    obtain ⟨l, hl, hcs⟩ := modifyLane_some_inv _ _ _ _ hml
    subst hcs
    have hdecL := getElem?_decomp _ _ _ hl
    constructor
    · unfold totalItems
      dsimp only [jsSpliceIns]
      conv_rhs => rw [hdecL]
      have h2 : l.children.length = (l.children.take j).length + (l.children.drop j).length := by
        conv_lhs => rw [← List.take_append_drop j l.children]
        simp
        omega
      simp only [List.map_append, List.map_cons, List.sum_append, List.sum_cons,
        List.length_append, List.map_map]
      simp only [Function.comp_def, Entity.itemCount]
      simp only [List.map_const', List.sum_replicate, smul_eq_mul, mul_one]
      omega
    · intro s
      have h3 := count_map_id_eq its s
      have h4 : (l.children.map Item.id).count s =
          ((l.children.take j).map Item.id).count s + ((l.children.drop j).map Item.id).count s := by
        conv_lhs => rw [← List.take_append_drop j l.children]
        rw [List.map_append, List.count_append]
      unfold countId boardIds
      dsimp only [jsSpliceIns]
      conv_rhs => rw [hdecL]
      simp only [List.map_append, List.map_cons, List.flatten_append, List.flatten_cons,
        List.count_append, List.map_map]
      unfold laneIds
      dsimp only
      simp only [List.count_cons, List.count_append, List.map_append]
      simp only [Function.comp_def, Entity.idOccurrences]
      omega
  | [] =>
    have hnone : insertEntity b [] es = none := rfl
    rw [hnone] at hi
    exact absurd hi (by simp)
  | i :: j :: k :: t =>
    have hnone : insertEntity b (i :: j :: k :: t) es = none := rfl
    rw [hnone] at hi
    exact absurd hi (by simp)

theorem maybeCompleteForMove_id (srcBoard : Board) (srcPath : List Nat) (dstBoard : Board)
    (dstPath : List Nat) (it : Item) :
    (maybeCompleteForMove srcBoard srcPath dstBoard dstPath it).id = it.id := by
  unfold maybeCompleteForMove
  dsimp only
  split
  · rfl
  · split <;> rfl

theorem crossToInsert_itemCount (sb db : Board) (dp fdp : List Nat) (e : Entity) :
    (crossToInsert sb db dp fdp e).itemCount = e.itemCount := by
  cases e <;> rfl

theorem crossToInsert_idOccurrences (sb db : Board) (dp fdp : List Nat) (e : Entity) (s : String) :
    (crossToInsert sb db dp fdp e).idOccurrences s = e.idOccurrences s := by
  cases e with
  | item it =>
    simp only [crossToInsert, Entity.idOccurrences]
    rw [maybeCompleteForMove_id]
  | lane l => rfl
  | board b => rfl

def Entity.isBoard : Entity → Bool
  | .board _ => true
  | _ => false

theorem idOccurrences_self (e : Entity) (h : e.isBoard = false) :
    1 ≤ e.idOccurrences e.id := by
  cases e with
  | board b => simp [Entity.isBoard] at h
  | lane l => simp [Entity.idOccurrences, laneIds, Entity.id, List.count_cons]
  | item i => simp [Entity.idOccurrences, Entity.id]

def RegCall.touchedScope : RegCall → Option String
  | ⟨_, .htmlInsert _ _⟩ => none
  | ⟨_, .sameMove s _ _⟩ => some s
  | ⟨_, .crossRemove s _ _ _⟩ => some s
  | ⟨_, .crossInsert ds _ _ _ _ _⟩ => some ds

theorem setMgr_managers_ne (st : St) (file : String) (b : Board) (g : String) (hg : g ≠ file) :
    (setMgr st file b).managers g = st.managers g := by
  simp [setMgr, hg]

theorem setMgr_instances (st : St) (file : String) (b : Board) :
    (setMgr st file b).instances = st.instances := rfl

theorem instSetListCollapse_managers (st : St) (s : String) (op : List Bool → List Bool) :
    (instSetListCollapse st s op).managers = st.managers := rfl

theorem instSetListCollapse_instances_ne (st : St) (sc : String) (op : List Bool → List Bool)
    (s : String) (hs : s ≠ sc) :
    (instSetListCollapse st sc op).instances s = st.instances s := by
  simp [instSetListCollapse, hs]

theorem sameMoveApply_managers_frame (st : St) (file scopeId : String) (inst : Inst)
    (board : Board) (dragPath finalDropPath : List Nat) (g : String) (hg : g ≠ file) :
    (sameMoveApply st file scopeId inst board dragPath finalDropPath).managers g =
      st.managers g := by
  unfold sameMoveApply
  dsimp only
  split
  · cases hls : instGetListCollapse st inst with
    | some cs => simp only [hls, setMgr_managers_ne _ _ _ _ hg, instSetListCollapse_managers]
    | none => simp only [hls, instSetListCollapse_managers]
  · split <;> exact setMgr_managers_ne _ _ _ _ hg

theorem crossRemoveApply_managers_frame (st : St) (file scopeId : String) (board : Board)
    (dragPath : List Nat) (entityId : String) (isLane : Bool) (g : String) (hg : g ≠ file) :
    (crossRemoveApply st file scopeId board dragPath entityId isLane).managers g =
      st.managers g := by
  unfold crossRemoveApply
  dsimp only
  split
  · exact setMgr_managers_ne _ _ _ _ hg
  · split
    · exact setMgr_managers_ne _ _ _ _ hg
    · split
      · split
        · exact setMgr_managers_ne _ _ _ _ hg
        · cases hls : instGetListCollapse st _ with
          | some cs =>
              simp only [hls, setMgr_managers_ne _ _ _ _ hg, instSetListCollapse_managers]
          | none => simp only [hls, instSetListCollapse_managers]
      · exact setMgr_managers_ne _ _ _ _ hg

theorem crossInsertApply_managers_frame (st : St) (file dstScopeId srcScopeId : String)
    (board : Board) (dragPath finalDropPath : List Nat) (toInsert : Entity) (isLane : Bool)
    (g : String) (hg : g ≠ file) :
    (crossInsertApply st file dstScopeId srcScopeId board dragPath finalDropPath toInsert
        isLane).managers g = st.managers g := by
  unfold crossInsertApply
  dsimp only
  split
  · split
    · exact setMgr_managers_ne _ _ _ _ hg
    · cases hls : instGetListCollapse st _ with
      | some cs => simp only [hls, setMgr_managers_ne _ _ _ _ hg, instSetListCollapse_managers]
      | none => simp only [hls, instSetListCollapse_managers]
  · exact setMgr_managers_ne _ _ _ _ hg

theorem applyCall_managers_frame (st : St) (c : RegCall) (g : String) (hg : g ≠ c.file) :
    (applyCall st c).managers g = st.managers g := by
  obtain ⟨file, kind⟩ := c
  simp only at hg
  unfold applyCall
  split
  · rfl
  · rename_i board hb
    cases kind with
    | htmlInsert dp its => exact setMgr_managers_ne _ _ _ _ hg
    | sameMove sc dp fdp =>
      dsimp only
      split
      · rfl
      · exact sameMoveApply_managers_frame _ _ _ _ _ _ _ _ hg
    | crossRemove sc dp eid il => exact crossRemoveApply_managers_frame _ _ _ _ _ _ _ _ hg
    | crossInsert ds ss dp fdp ti il =>
        exact crossInsertApply_managers_frame _ _ _ _ _ _ _ _ _ _ hg

theorem sameMoveApply_instances_frame (st : St) (file scopeId : String) (inst : Inst)
    (board : Board) (dragPath finalDropPath : List Nat) (s : String) (hs : s ≠ scopeId) :
    (sameMoveApply st file scopeId inst board dragPath finalDropPath).instances s =
      st.instances s := by
  unfold sameMoveApply
  dsimp only
  split
  · cases hls : instGetListCollapse st inst with
    | some cs =>
        simp only [hls, setMgr_instances, instSetListCollapse_instances_ne _ _ _ _ hs]
    | none => simp only [hls, instSetListCollapse_instances_ne _ _ _ _ hs]
  · split <;> rfl

theorem crossRemoveApply_instances_frame (st : St) (file scopeId : String) (board : Board)
    (dragPath : List Nat) (entityId : String) (isLane : Bool) (s : String) (hs : s ≠ scopeId) :
    (crossRemoveApply st file scopeId board dragPath entityId isLane).instances s =
      st.instances s := by
  unfold crossRemoveApply
  dsimp only
  split
  · rfl
  · split
    · rfl
    · split
      · split
        · rfl
        · cases hls : instGetListCollapse st _ with
          | some cs =>
              simp only [hls, setMgr_instances, instSetListCollapse_instances_ne _ _ _ _ hs]
          | none => simp only [hls, instSetListCollapse_instances_ne _ _ _ _ hs]
      · rfl

theorem crossInsertApply_instances_frame (st : St) (file dstScopeId srcScopeId : String)
    (board : Board) (dragPath finalDropPath : List Nat) (toInsert : Entity) (isLane : Bool)
    (s : String) (hs : s ≠ dstScopeId) :
    (crossInsertApply st file dstScopeId srcScopeId board dragPath finalDropPath toInsert
        isLane).instances s = st.instances s := by
  unfold crossInsertApply
  dsimp only
  split
  · split
    · rfl
    · cases hls : instGetListCollapse st _ with
      | some cs =>
          simp only [hls, setMgr_instances, instSetListCollapse_instances_ne _ _ _ _ hs]
      | none => simp only [hls, instSetListCollapse_instances_ne _ _ _ _ hs]
  · rfl

theorem applyCall_instances_frame (st : St) (c : RegCall) (s : String)
    (hs : c.touchedScope ≠ some s) :
    (applyCall st c).instances s = st.instances s := by
  obtain ⟨file, kind⟩ := c
  unfold applyCall
  split
  · rfl
  · rename_i board hb
    cases kind with
    | htmlInsert dp its => rfl
    | sameMove sc dp fdp =>
      have hne : s ≠ sc := by
        intro h
        subst h
        simp [RegCall.touchedScope] at hs
      dsimp only
      split
      · rfl
      · exact sameMoveApply_instances_frame _ _ _ _ _ _ _ _ hne
    | crossRemove sc dp eid il =>
      have hne : s ≠ sc := by
        intro h
        subst h
        simp [RegCall.touchedScope] at hs
      exact crossRemoveApply_instances_frame _ _ _ _ _ _ _ _ hne
    | crossInsert ds ss dp fdp ti il =>
      have hne : s ≠ ds := by
        intro h
        subst h
        simp [RegCall.touchedScope] at hs
      exact crossInsertApply_instances_frame _ _ _ _ _ _ _ _ _ _ hne

theorem instGetListCollapse_local (st : St) (inst : Inst) (cs : List Bool)
    (hcs : inst.localListCollapse = some cs) :
    instGetListCollapse st inst = some cs := by
  unfold instGetListCollapse
  rw [hcs]

theorem setMgr_managers_self (st : St) (file : String) (b : Board) :
    (setMgr st file b).managers file = some b := by
  simp [setMgr]

theorem applyCall_crossRemove_ok (st : St) (file scopeId : String) (board : Board)
    (dragPath : List Nat) (e : Entity) (inst : Inst) (cs : List Bool)
    (hm : st.managers file = some board)
    (he : getEntityFromPath board dragPath = some e)
    (hi : st.instances scopeId = some inst)
    (hcs : inst.localListCollapse = some cs) :
    ∃ b', (applyCall st ⟨file, .crossRemove scopeId dragPath e.id e.isLane⟩).managers file =
        some b' ∧
      b'.children = ((removeEntity board dragPath).getD board).children := by
  have h1 : applyCall st ⟨file, .crossRemove scopeId dragPath e.id e.isLane⟩ =
      crossRemoveApply st file scopeId board dragPath e.id e.isLane := by
    unfold applyCall
    rw [hm]
  rw [h1]
  unfold crossRemoveApply
  simp only [he]
  rw [if_neg (fun h => h rfl)]
  cases hLane : e.isLane with
  | true =>
    simp only [hi, instGetListCollapse_local st inst cs hcs]
    exact ⟨_, setMgr_managers_self _ _ _, rfl⟩
  | false =>
    exact ⟨_, setMgr_managers_self _ _ _, rfl⟩

theorem applyCall_crossInsert_ok (st : St) (file dstScopeId srcScopeId : String) (board : Board)
    (dragPath finalDropPath : List Nat) (toInsert : Entity) (isLane : Bool) (inst : Inst)
    (cs : List Bool)
    (hm : st.managers file = some board)
    (hi : st.instances dstScopeId = some inst)
    (hcs : inst.localListCollapse = some cs) :
    ∃ b', (applyCall st ⟨file, .crossInsert dstScopeId srcScopeId dragPath finalDropPath toInsert
          isLane⟩).managers file = some b' ∧
      b'.children = ((insertEntity board finalDropPath [toInsert]).getD board).children := by
  have h1 : applyCall st ⟨file, .crossInsert dstScopeId srcScopeId dragPath finalDropPath toInsert
        isLane⟩ =
      crossInsertApply st file dstScopeId srcScopeId board dragPath finalDropPath toInsert
        isLane := by
    unfold applyCall
    rw [hm]
  rw [h1]
  unfold crossInsertApply
  cases isLane with
  | true =>
    simp only [hi, instGetListCollapse_local st inst cs hcs]
    exact ⟨_, setMgr_managers_self _ _ _, rfl⟩
  | false =>
    exact ⟨_, setMgr_managers_self _ _ _, rfl⟩

theorem scopeFile_ne_of_ne (s t : String) (h : scopeFile s ≠ scopeFile t) : s ≠ t := by
  intro hst
  subst hst
  exact h rfl

theorem handleDropCalls_cross (st : St) (dragEntity dropEntity : DndEntity)
    (si di : Inst) (sb db : Board) (e : Entity) (fdp : List Nat)
    (hh : dragEntity.scopeId ≠ "htmldnd")
    (hsf : scopeFile dragEntity.scopeId ≠ scopeFile dropEntity.scopeId)
    (hsi : st.instances dragEntity.scopeId = some si)
    (hdi : st.instances dropEntity.scopeId = some di)
    (hsm : st.managers si.file = some sb)
    (hdm : st.managers di.file = some db)
    (he : getEntityFromPath sb dragEntity.path = some e)
    (hfdp : crossFinalDropPath db (inDropAreaOf dragEntity.data dropEntity.data)
        dropEntity.path = some fdp) :
    handleDropCalls st dragEntity dropEntity =
      [⟨si.file, .crossRemove dragEntity.scopeId dragEntity.path e.id e.isLane⟩,
        ⟨di.file, .crossInsert dropEntity.scopeId dragEntity.scopeId dragEntity.path fdp
          (crossToInsert sb db dragEntity.path fdp e) e.isLane⟩] := by
  unfold handleDropCalls
  rw [if_neg hh, if_neg hsf]
  unfold crossBranch
  simp only [hsi, hdi, hsm, hdm, he, hfdp]

theorem handleDropCalls_same (st : St) (dragEntity dropEntity : DndEntity) (inst : Inst)
    (b : Board)
    (hh : dragEntity.scopeId ≠ "htmldnd")
    (hsf : scopeFile dragEntity.scopeId = scopeFile dropEntity.scopeId)
    (hi : st.instances dragEntity.scopeId = some inst)
    (hm : st.managers inst.file = some b) :
    handleDropCalls st dragEntity dropEntity =
      [⟨inst.file, .sameMove dragEntity.scopeId dragEntity.path
          (sameFinalDropPath (inDropAreaOf dragEntity.data dropEntity.data) dropEntity.path)⟩] := by
  unfold handleDropCalls
  rw [if_neg hh, if_pos hsf]
  unfold sameBranch
  simp only [hi, hm]

theorem insertEntity_board_none (b : Board) (p : List Nat) (x : Board) :
    insertEntity b p [Entity.board x] = none := by
  match p with
  | [] => rfl
  | [i] => rfl
  | [i, j] => rfl
  | i :: j :: k :: t => rfl

/-- Claim C1 (confirmed): for every cross-document move executed by the drop
handler, the total number of Items summed over the source and destination
boards is unchanged, and the moved entity's id afterwards appears in exactly
the destination board, exactly once, and never in both.  Hypotheses state
that the move actually executes (both instances and registries resolve, the
entity is found at the drag path, the destination insertion succeeds, and the
collapse arrays are populated, as `populateViewState` guarantees) and that
ids are unique (the moved id occurs once in the source and not at all in the
destination beforehand). -/
theorem crossMove_conservation (st : St) (dragEntity dropEntity : DndEntity)
    (si di : Inst) (sb db db' : Board) (e : Entity) (fdp : List Nat) (csS csD : List Bool)
    (hh : dragEntity.scopeId ≠ "htmldnd")
    (hsf : scopeFile dragEntity.scopeId ≠ scopeFile dropEntity.scopeId)
    (hsi : st.instances dragEntity.scopeId = some si)
    (hdi : st.instances dropEntity.scopeId = some di)
    (hfiles : si.file ≠ di.file)
    (hsm : st.managers si.file = some sb)
    (hdm : st.managers di.file = some db)
    (he : getEntityFromPath sb dragEntity.path = some e)
    (hcsS : si.localListCollapse = some csS)
    (hcsD : di.localListCollapse = some csD)
    (hfdp : crossFinalDropPath db (inDropAreaOf dragEntity.data dropEntity.data)
        dropEntity.path = some fdp)
    (hins : insertEntity db fdp [crossToInsert sb db dragEntity.path fdp e] = some db')
    (hu : countId sb e.id = 1) (hz : countId db e.id = 0) :
    ∃ sbF dbF,
      (handleDropRun st dragEntity dropEntity).managers si.file = some sbF ∧
      (handleDropRun st dragEntity dropEntity).managers di.file = some dbF ∧
      totalItems sbF + totalItems dbF = totalItems sb + totalItems db ∧
      countId dbF e.id = 1 ∧ countId sbF e.id = 0 := by
  have htrace := handleDropCalls_cross st dragEntity dropEntity si di sb db e fdp hh hsf hsi hdi
    hsm hdm he hfdp
  have hnb : e.isBoard = false := by
    cases e with
    | board b2 =>
      rw [show crossToInsert sb db dragEntity.path fdp (.board b2) = .board b2 from rfl,
        insertEntity_board_none] at hins
      exact absurd hins (by simp)
    | lane l => rfl
    | item i => rfl
  have hpne : dragEntity.path ≠ [] := by
    intro hnil
    rw [hnil] at he
    have h0 : getEntityFromPath sb [] = some (.board sb) := rfl
    rw [h0] at he
    rw [← Option.some.inj he] at hnb
    simp [Entity.isBoard] at hnb
  have hss : dragEntity.scopeId ≠ dropEntity.scopeId := scopeFile_ne_of_ne _ _ hsf
  obtain ⟨sbR, hrem⟩ := removeEntity_isSome sb dragEntity.path e he hpne
  obtain ⟨sb1, hsb1, hsb1c⟩ := applyCall_crossRemove_ok st si.file dragEntity.scopeId sb
    dragEntity.path e si csS hsm he hsi hcsS
  have hm1dst : (applyCall st ⟨si.file,
      .crossRemove dragEntity.scopeId dragEntity.path e.id e.isLane⟩).managers di.file =
      some db := by
    rw [applyCall_managers_frame st _ di.file (fun h => hfiles h.symm)]
    exact hdm
  have hi1 : (applyCall st ⟨si.file,
      .crossRemove dragEntity.scopeId dragEntity.path e.id e.isLane⟩).instances
      dropEntity.scopeId = some di := by
    rw [applyCall_instances_frame st _ dropEntity.scopeId
      (by simpa [RegCall.touchedScope] using hss)]
    exact hdi
  obtain ⟨db2, hdb2, hdb2c⟩ := applyCall_crossInsert_ok
    (applyCall st ⟨si.file, .crossRemove dragEntity.scopeId dragEntity.path e.id e.isLane⟩)
    di.file dropEntity.scopeId dragEntity.scopeId db dragEntity.path fdp
    (crossToInsert sb db dragEntity.path fdp e) e.isLane di csD hm1dst hi1 hcsD
  have hm2src : (applyCall
      (applyCall st ⟨si.file, .crossRemove dragEntity.scopeId dragEntity.path e.id e.isLane⟩)
      ⟨di.file, .crossInsert dropEntity.scopeId dragEntity.scopeId dragEntity.path fdp
        (crossToInsert sb db dragEntity.path fdp e) e.isLane⟩).managers si.file = some sb1 := by
    rw [applyCall_managers_frame _ _ si.file hfiles]
    exact hsb1
  have hrun : handleDropRun st dragEntity dropEntity =
      applyCall
        (applyCall st ⟨si.file, .crossRemove dragEntity.scopeId dragEntity.path e.id e.isLane⟩)
        ⟨di.file, .crossInsert dropEntity.scopeId dragEntity.scopeId dragEntity.path fdp
          (crossToInsert sb db dragEntity.path fdp e) e.isLane⟩ := by
    unfold handleDropRun
    rw [htrace]
    rfl
  have hremC := removeEntity_counts sb sbR dragEntity.path e he hpne hrem
  have hinsC := insertEntity_counts db db' fdp [crossToInsert sb db dragEntity.path fdp e] hins
  have hsb1c' : sb1.children = sbR.children := by rw [hsb1c, hrem]; rfl
  have hdb2c' : db2.children = db'.children := by rw [hdb2c, hins]; rfl
  refine ⟨sb1, db2, ?_, ?_, ?_, ?_, ?_⟩
  · rw [hrun]; exact hm2src
  · rw [hrun]; exact hdb2
  · have t1 := totalItems_congr _ _ hsb1c'
    have t2 := totalItems_congr _ _ hdb2c'
    have t3 := hremC.1
    have t4 := hinsC.1
    simp only [List.map_cons, List.map_nil, List.sum_cons, List.sum_nil, add_zero,
      crossToInsert_itemCount] at t4
    omega
  · have c2 := countId_congr _ _ hdb2c' e.id
    have c4 := hinsC.2 e.id
    simp only [List.map_cons, List.map_nil, List.sum_cons, List.sum_nil, add_zero,
      crossToInsert_idOccurrences] at c4
    have c3 := hremC.2 e.id
    have hocc1 := idOccurrences_self e hnb
    omega
  · have c1 := countId_congr _ _ hsb1c' e.id
    have c3 := hremC.2 e.id
    have hocc1 := idOccurrences_self e hnb
    omega

/-! Concrete boards and states used by the witnesses. -/

def witItemA : Item := ⟨"a", ⟨"A", false, ' '⟩⟩
def witItemB : Item := ⟨"b", ⟨"B", false, ' '⟩⟩
def witBoardX : Board :=
  ⟨"X", [⟨"l1", ⟨"Todo", false, none⟩, [witItemA, witItemB]⟩], ⟨some [false], none⟩⟩
def witBoardY : Board :=
  ⟨"Y", [⟨"l2", ⟨"Backlog", true, none⟩, []⟩], ⟨some [false], none⟩⟩

def witSt : St :=
  { managers := fun f => if f = "X" then some witBoardX else if f = "Y" then some witBoardY else none
    instances := fun s =>
      if s = "v1:::X" then some ⟨"X", some [false]⟩
      else if s = "v2:::Y" then some ⟨"Y", some [false]⟩ else none
    htmlScope := fun v => if v = "view1" then some "X" else none }

def witDragItem : DndEntity := ⟨"v1:::X", [0, 0], ⟨"item", none, "", []⟩⟩
def witDropItemY : DndEntity := ⟨"v2:::Y", [0, 0], ⟨"item", some ["item"], "", []⟩⟩
def witDropItemX : DndEntity := ⟨"v1:::X", [0, 1], ⟨"item", some ["item"], "", []⟩⟩
def witDragHtml : DndEntity := ⟨"htmldnd", [], ⟨"item", none, "view1", ["t1", "t2"]⟩⟩

/-- Witness for `crossMove_conservation` at a concrete two-board state. -/
theorem crossMove_conservation_witness :
    ∃ sbF dbF,
      (handleDropRun witSt witDragItem witDropItemY).managers "X" = some sbF ∧
      (handleDropRun witSt witDragItem witDropItemY).managers "Y" = some dbF ∧
      totalItems sbF + totalItems dbF = totalItems witBoardX + totalItems witBoardY ∧
      countId dbF "a" = 1 ∧ countId sbF "a" = 0 := by
  obtain ⟨db', hdb'⟩ : ∃ x, insertEntity witBoardY [0, 0]
      [crossToInsert witBoardX witBoardY [0, 0] [0, 0] (Entity.item witItemA)] = some x :=
    ⟨_, rfl⟩
  exact crossMove_conservation witSt witDragItem witDropItemY ⟨"X", some [false]⟩
    ⟨"Y", some [false]⟩ witBoardX witBoardY db' (Entity.item witItemA) [0, 0] [false] [false]
    (by decide) (by decide) (by decide) (by decide) (by decide) (by decide) (by decide)
    (by decide) (by decide) (by decide) (by decide) hdb' (by decide) (by decide)

/-- Claim C2 (confirmed): when the cross-board source-removal mutation finds
no entity at the recorded drag path, or an entity whose id differs from the
recorded one, the removal is skipped with a warning: the mutation returns the
source board unchanged, every registry is untouched, and no instance state
changes — no entity is ever deleted in that case. -/
theorem crossRemove_race_skips (st : St) (file scopeId : String) (board : Board)
    (dragPath : List Nat) (entityId : String) (isLane : Bool)
    (hm : st.managers file = some board)
    (hrace : getEntityFromPath board dragPath = none ∨
      ∃ ce, getEntityFromPath board dragPath = some ce ∧ ce.id ≠ entityId) :
    crossRemoveWarns board dragPath entityId = true ∧
    (∀ g, (applyCall st ⟨file, .crossRemove scopeId dragPath entityId isLane⟩).managers g =
        st.managers g) ∧
    (∀ s, (applyCall st ⟨file, .crossRemove scopeId dragPath entityId isLane⟩).instances s =
        st.instances s) := by
  have happ : applyCall st ⟨file, .crossRemove scopeId dragPath entityId isLane⟩ =
      setMgr st file board := by
    have h1 : applyCall st ⟨file, .crossRemove scopeId dragPath entityId isLane⟩ =
        crossRemoveApply st file scopeId board dragPath entityId isLane := by
      unfold applyCall
      rw [hm]
    rw [h1]
    unfold crossRemoveApply
    rcases hrace with h | ⟨ce, hce, hne⟩
    · rw [h]
    · simp only [hce]
      rw [if_pos hne]
  have hwarn : crossRemoveWarns board dragPath entityId = true := by
    unfold crossRemoveWarns
    rcases hrace with h | ⟨ce, hce, hne⟩
    · rw [h]
    · simp only [hce]
      simp [hne]
  refine ⟨hwarn, ?_, ?_⟩
  · intro g
    rw [happ]
    by_cases hg : g = file
    · subst hg
      rw [setMgr_managers_self _ _ _, hm]
    · exact setMgr_managers_ne _ _ _ _ hg
  · intro s
    rw [happ]
    rfl

/-- Witness for `crossRemove_race_skips`: the recorded id `gone` no longer
matches the entity at path `[0, 0]` of board `X`. -/
theorem crossRemove_race_skips_witness :
    crossRemoveWarns witBoardX [0, 0] "gone" = true ∧
    (∀ g, (applyCall witSt ⟨"X", .crossRemove "v1:::X" [0, 0] "gone" false⟩).managers g =
        witSt.managers g) ∧
    (∀ s, (applyCall witSt ⟨"X", .crossRemove "v1:::X" [0, 0] "gone" false⟩).instances s =
        witSt.instances s) :=
  crossRemove_race_skips witSt "X" "v1:::X" witBoardX [0, 0] "gone" false (by decide)
    (Or.inr ⟨Entity.item witItemA, by decide, by decide⟩)

/-- Claim C3 (confirmed): a cross-board move issues exactly two registry
calls — the source-removal `setState` first, the destination-insertion
`setState` second — as separate calls on the two registries; the removal
call's presence and position do not depend on the insertion's outcome. -/
theorem crossMove_removal_before_insertion (st : St) (dragEntity dropEntity : DndEntity)
    (si di : Inst) (sb db : Board) (e : Entity) (fdp : List Nat)
    (hh : dragEntity.scopeId ≠ "htmldnd")
    (hsf : scopeFile dragEntity.scopeId ≠ scopeFile dropEntity.scopeId)
    (hsi : st.instances dragEntity.scopeId = some si)
    (hdi : st.instances dropEntity.scopeId = some di)
    (hsm : st.managers si.file = some sb)
    (hdm : st.managers di.file = some db)
    (he : getEntityFromPath sb dragEntity.path = some e)
    (hfdp : crossFinalDropPath db (inDropAreaOf dragEntity.data dropEntity.data)
        dropEntity.path = some fdp) :
    handleDropCalls st dragEntity dropEntity =
      [⟨si.file, .crossRemove dragEntity.scopeId dragEntity.path e.id e.isLane⟩,
        ⟨di.file, .crossInsert dropEntity.scopeId dragEntity.scopeId dragEntity.path fdp
          (crossToInsert sb db dragEntity.path fdp e) e.isLane⟩] :=
  handleDropCalls_cross st dragEntity dropEntity si di sb db e fdp hh hsf hsi hdi hsm hdm he hfdp

/-- Witness for `crossMove_removal_before_insertion` at the concrete
two-board state. -/
theorem crossMove_removal_before_insertion_witness :
    handleDropCalls witSt witDragItem witDropItemY =
      [⟨"X", .crossRemove "v1:::X" [0, 0] "a" false⟩,
        ⟨"Y", .crossInsert "v2:::Y" "v1:::X" [0, 0] [0, 0]
          (Entity.item ⟨"a", ⟨"A", true, 'x'⟩⟩) false⟩] :=
  crossMove_removal_before_insertion witSt witDragItem witDropItemY ⟨"X", some [false]⟩
    ⟨"Y", some [false]⟩ witBoardX witBoardY (Entity.item witItemA) [0, 0]
    (by decide) (by decide) (by decide) (by decide) (by decide) (by decide) (by decide)
    (by decide)

/-- Claim C5 (confirmed): when the document segments of the two Scope IDs
agree, the handler takes the same-board path: exactly one `setState` call is
issued, on the registry of the resolved instance's document (which performs
the `moveEntity` relocation from the drag path to the computed final drop
path), and no other document's registry is mutated. -/
theorem sameBoard_single_mutation (st : St) (dragEntity dropEntity : DndEntity) (inst : Inst)
    (b : Board) (p : String)
    (hh : dragEntity.scopeId ≠ "htmldnd")
    (hsp : scopeFile dragEntity.scopeId = some p)
    (hdp : scopeFile dropEntity.scopeId = some p)
    (hi : st.instances dragEntity.scopeId = some inst)
    (hfile : inst.file = p)
    (hm : st.managers p = some b) :
    handleDropCalls st dragEntity dropEntity =
      [⟨p, .sameMove dragEntity.scopeId dragEntity.path
          (sameFinalDropPath (inDropAreaOf dragEntity.data dropEntity.data) dropEntity.path)⟩] ∧
    ∀ g, g ≠ p → (handleDropRun st dragEntity dropEntity).managers g = st.managers g := by
  have hsf : scopeFile dragEntity.scopeId = scopeFile dropEntity.scopeId := by rw [hsp, hdp]
  have htrace := handleDropCalls_same st dragEntity dropEntity inst b hh hsf hi
    (by rw [hfile]; exact hm)
  constructor
  · rw [htrace, hfile]
  · intro g hg
    unfold handleDropRun
    rw [htrace]
    show (applyCall st _).managers g = _
    exact applyCall_managers_frame st _ g (by simpa [hfile] using hg)

/-- Witness for `sameBoard_single_mutation`: a same-board drop on board
`X`. -/
theorem sameBoard_single_mutation_witness :
    handleDropCalls witSt witDragItem witDropItemX =
      [⟨"X", .sameMove "v1:::X" [0, 0] [0, 1]⟩] ∧
    ∀ g, g ≠ "X" →
      (handleDropRun witSt witDragItem witDropItemX).managers g = witSt.managers g :=
  sameBoard_single_mutation witSt witDragItem witDropItemX ⟨"X", some [false]⟩ witBoardX "X"
    (by decide) (by decide) (by decide) (by decide) (by decide) (by decide)

def witPrependBoard : Board :=
  ⟨"P", [⟨"pl", ⟨"L", false, none⟩, [⟨"pi", ⟨"I", false, ' '⟩⟩]⟩], ⟨some [false], some ""⟩⟩

def witDropLaneData : DndData := ⟨"item", some ["lane"], "", []⟩

/-- Claim C7 (corrected): when a drop lands "into" a container (the drop
target's accepted sort types do not include the drag entity's type), the
same-board path appends child index 0; the cross-board path appends at the
parent's child count when the destination's `new-card-insertion-method`
setting is `'append'`, unset, or the empty string (JS `||` treats the empty
string as falsy and defaults it to `'append'`), and prepends at index 0 for
any other value.  The original claim said every value other than `'append'`
or unset prepends; `dropIntoContainer_index_counterexample` shows the empty
string appends. -/
theorem dropIntoContainer_insertion_index (dragData dropData : DndData) (db : Board)
    (dropPath : List Nat) (parent : Entity)
    (hArea : inDropAreaOf dragData dropData = true)
    (hparent : getEntityFromPath db dropPath = some parent) :
    sameFinalDropPath (inDropAreaOf dragData dropData) dropPath = dropPath ++ [0] ∧
    ((db.settings.newCardInsertionMethod = none ∨
        db.settings.newCardInsertionMethod = some "append" ∨
        db.settings.newCardInsertionMethod = some "") →
      crossFinalDropPath db (inDropAreaOf dragData dropData) dropPath =
        some (dropPath ++ [parent.childCount])) ∧
    (∀ v, db.settings.newCardInsertionMethod = some v → v ≠ "append" → v ≠ "" →
      crossFinalDropPath db (inDropAreaOf dragData dropData) dropPath =
        some (dropPath ++ [0])) := by
  rw [hArea]
  refine ⟨by rw [sameFinalDropPath, if_pos rfl], ?_, ?_⟩
  · intro h
    unfold crossFinalDropPath
    rw [if_pos rfl]
    have happ : jsOrAppend db.settings.newCardInsertionMethod = "append" := by
      rcases h with h | h | h <;> rw [h] <;> simp [jsOrAppend]
    rw [if_pos happ, hparent]
  · intro v hv hva hve
    unfold crossFinalDropPath
    rw [if_pos rfl]
    have hnapp : ¬(jsOrAppend db.settings.newCardInsertionMethod = "append") := by
      rw [hv]
      simp [jsOrAppend, hve, hva]
    rw [if_neg hnapp]

/-- Witness for `dropIntoContainer_insertion_index`: dropping an item into a
lane container of board `Y` (setting unset) and of a board whose setting is
`'prepend'`. -/
theorem dropIntoContainer_insertion_index_witness :
    sameFinalDropPath (inDropAreaOf witDragItem.data witDropLaneData) [0] = [0] ++ [0] ∧
    ((witBoardY.settings.newCardInsertionMethod = none ∨
        witBoardY.settings.newCardInsertionMethod = some "append" ∨
        witBoardY.settings.newCardInsertionMethod = some "") →
      crossFinalDropPath witBoardY (inDropAreaOf witDragItem.data witDropLaneData) [0] =
        some ([0] ++ [(Entity.lane ⟨"l2", ⟨"Backlog", true, none⟩, []⟩).childCount])) ∧
    (∀ v, witBoardY.settings.newCardInsertionMethod = some v → v ≠ "append" → v ≠ "" →
      crossFinalDropPath witBoardY (inDropAreaOf witDragItem.data witDropLaneData) [0] =
        some ([0] ++ [0])) :=
  dropIntoContainer_insertion_index witDragItem.data witDropLaneData witBoardY [0]
    (Entity.lane ⟨"l2", ⟨"Backlog", true, none⟩, []⟩) (by decide) (by decide)

/-- Counterexample to claim C7 as stated: the empty-string setting is neither
`'append'` nor unset, so the claim demands prepend-at-0, but the code's
`(getSetting(...) || 'append')` treats it as falsy and appends at the
parent's child count (1, not 0). -/
theorem dropIntoContainer_index_counterexample :
    inDropAreaOf ⟨"item", none, "", []⟩ witDropLaneData = true ∧
    witPrependBoard.settings.newCardInsertionMethod = some "" ∧
    ("" : String) ≠ "append" ∧
    crossFinalDropPath witPrependBoard
        (inDropAreaOf ⟨"item", none, "", []⟩ witDropLaneData) [0] = some [0, 1] ∧
    crossFinalDropPath witPrependBoard
        (inDropAreaOf ⟨"item", none, "", []⟩ witDropLaneData) [0] ≠ some [0, 0] := by
  decide

/-- Claim C9 (confirmed): a drop whose drag entity carries the reserved Scope
ID `htmldnd` only ever inserts newly created Items into the single board
resolved from the drag data's view id: every issued call is an `htmlInsert`
on that board (at most one call is issued), every other document's registry
is untouched, and on the resolved board no entity is removed — the total
Item count and every id's occurrence count can only grow.  No source-removal
mutation and no cross-board protocol call is ever issued. -/
theorem htmldnd_insert_only (st : St) (dragEntity dropEntity : DndEntity)
    (hh : dragEntity.scopeId = "htmldnd") :
    (∀ c ∈ handleDropCalls st dragEntity dropEntity,
        st.htmlScope dragEntity.data.viewId = some c.file ∧
        ∃ items, c.kind = .htmlInsert dropEntity.path items) ∧
    (handleDropCalls st dragEntity dropEntity).length ≤ 1 ∧
    (∀ g, st.htmlScope dragEntity.data.viewId ≠ some g →
        (handleDropRun st dragEntity dropEntity).managers g = st.managers g) ∧
    (∀ file b, st.htmlScope dragEntity.data.viewId = some file → st.managers file = some b →
        ∃ b', (handleDropRun st dragEntity dropEntity).managers file = some b' ∧
          totalItems b ≤ totalItems b' ∧ ∀ s, countId b s ≤ countId b' s) := by
  have hcalls : handleDropCalls st dragEntity dropEntity = htmlBranch st dragEntity dropEntity := by
    unfold handleDropCalls
    rw [if_pos hh]
  have hrun : handleDropRun st dragEntity dropEntity =
      (htmlBranch st dragEntity dropEntity).foldl applyCall st := by
    unfold handleDropRun
    rw [hcalls]
  rcases hvs : st.htmlScope dragEntity.data.viewId with _ | file
  · have hb : htmlBranch st dragEntity dropEntity = [] := by
      unfold htmlBranch
      rw [hvs]
    rw [hcalls, hrun, hb]
    refine ⟨by simp, by simp, fun g _ => rfl, ?_⟩
    intro file b hf
    exact absurd hf (by simp)
  · rcases hmf : st.managers file with _ | board
    · have hb : htmlBranch st dragEntity dropEntity = [] := by
        unfold htmlBranch
        simp only [hvs, hmf]
      rw [hcalls, hrun, hb]
      refine ⟨by simp, by simp, fun g _ => rfl, ?_⟩
      intro file' b hf hm
      injection hf with hf
      subst hf
      rw [hmf] at hm
      exact absurd hm (by simp)
    · have hb : htmlBranch st dragEntity dropEntity =
          [⟨file, .htmlInsert dropEntity.path
            (dragEntity.data.content.map (mkNewItem ·
              ((Option.map Entity.shouldMarkItemsComplete
                (getEntityFromPath board dropEntity.path.dropLast)).getD false)))⟩] := by
        unfold htmlBranch
        simp only [hvs, hmf]
      rw [hcalls, hrun, hb]
      have happly :
          applyCall st ⟨file, .htmlInsert dropEntity.path
            (dragEntity.data.content.map (mkNewItem ·
              ((Option.map Entity.shouldMarkItemsComplete
                (getEntityFromPath board dropEntity.path.dropLast)).getD false)))⟩ =
            setMgr st file
              ((insertEntity board dropEntity.path
                ((dragEntity.data.content.map (mkNewItem ·
                  ((Option.map Entity.shouldMarkItemsComplete
                    (getEntityFromPath board dropEntity.path.dropLast)).getD false))).map
                      .item)).getD board) := by
        unfold applyCall
        rw [hmf]
      refine ⟨?_, by simp, ?_, ?_⟩
      · intro c hc
        rw [List.mem_singleton] at hc
        subst hc
        exact ⟨rfl, _, rfl⟩
      · intro g hg
        have hgf : g ≠ file := by
          intro h
          subst h
          exact hg rfl
        show (applyCall st _).managers g = st.managers g
        exact applyCall_managers_frame st _ g hgf
      · intro file' b hf hm
        injection hf with hf
        subst hf
        rw [hmf] at hm
        injection hm with hm
        subst hm
        show ∃ b', (applyCall st _).managers file = some b' ∧ _
        rw [happly]
        refine ⟨(insertEntity board dropEntity.path
            ((dragEntity.data.content.map (mkNewItem ·
              ((Option.map Entity.shouldMarkItemsComplete
                (getEntityFromPath board dropEntity.path.dropLast)).getD false))).map
                  .item)).getD board, setMgr_managers_self _ _ _, ?_, ?_⟩
        · cases hins : insertEntity board dropEntity.path
              ((dragEntity.data.content.map (mkNewItem ·
                ((Option.map Entity.shouldMarkItemsComplete
                  (getEntityFromPath board dropEntity.path.dropLast)).getD false))).map
                    .item) with
          | none => exact Nat.le_refl _
          | some bI =>
            have := (insertEntity_counts board bI dropEntity.path _ hins).1
            simp only [Option.getD_some]
            omega
        · intro s
          cases hins : insertEntity board dropEntity.path
              ((dragEntity.data.content.map (mkNewItem ·
                ((Option.map Entity.shouldMarkItemsComplete
                  (getEntityFromPath board dropEntity.path.dropLast)).getD false))).map
                    .item) with
          | none => exact Nat.le_refl _
          | some bI =>
            have := (insertEntity_counts board bI dropEntity.path _ hins).2 s
            simp only [Option.getD_some]
            omega

/-- Witness for `htmldnd_insert_only`: an html drop of two pasted titles onto
board `X`. -/
theorem htmldnd_insert_only_witness :
    (∀ c ∈ handleDropCalls witSt witDragHtml witDropItemX,
        witSt.htmlScope witDragHtml.data.viewId = some c.file ∧
        ∃ items, c.kind = .htmlInsert witDropItemX.path items) ∧
    (handleDropCalls witSt witDragHtml witDropItemX).length ≤ 1 ∧
    (∀ g, witSt.htmlScope witDragHtml.data.viewId ≠ some g →
        (handleDropRun witSt witDragHtml witDropItemX).managers g = witSt.managers g) ∧
    (∀ file b, witSt.htmlScope witDragHtml.data.viewId = some file →
        witSt.managers file = some b →
        ∃ b', (handleDropRun witSt witDragHtml witDropItemX).managers file = some b' ∧
          totalItems b ≤ totalItems b' ∧ ∀ s, countId b s ≤ countId b' s) :=
  htmldnd_insert_only witSt witDragHtml witDropItemX (by decide)

theorem adjustDest_single (f t0 : Nat) : ∃ k, adjustDest [f] [t0] = [k] := by
  unfold adjustDest
  split
  · exact ⟨t0 - 1, by simp⟩
  · exact ⟨t0, rfl⟩

theorem insertEntity_lane_singleton (b : Board) (k : Nat) (l : Lane) :
    insertEntity b [k] [.lane l] = some { b with children := jsSpliceIns b.children k [l] } := rfl

theorem instSetListCollapse_self (st : St) (scopeId : String) (inst : Inst)
    (op : List Bool → List Bool) (hi : st.instances scopeId = some inst) :
    (instSetListCollapse st scopeId op).instances scopeId =
      some { inst with localListCollapse := inst.localListCollapse.map op } := by
  simp [instSetListCollapse, hi]

theorem moveEntity_lane (b : Board) (f t0 : Nat) (l l' : Lane) (tr : Entity → Entity)
    (hl : b.children[f]? = some l) (htr : tr (.lane l) = .lane l') :
    ∃ b', moveEntity b [f] [t0] tr = some b' ∧
      b'.children.length = b.children.length := by
  have hent : getEntityFromPath b [f] = some (.lane l) := by
    simp [getEntityFromPath, hl]
  obtain ⟨k, hk⟩ := adjustDest_single f t0
  have hstep : moveEntity b [f] [t0] tr =
      insertEntity { b with children := jsSpliceDel b.children f } (adjustDest [f] [t0])
        [tr (.lane l)] := by
    unfold moveEntity
    rw [hent]
    rfl
  rw [hstep, htr, hk, insertEntity_lane_singleton]
  have hf : f < b.children.length := by
    rw [List.getElem?_eq_some] at hl
    exact hl.1
  refine ⟨_, rfl, ?_⟩
  show (jsSpliceIns (jsSpliceDel b.children f) k [l']).length = b.children.length
  rw [jsSpliceIns_length, jsSpliceDel_length _ _ hf]
  simp
  omega

/-- Claim C6 (confirmed): after any Lane move, each affected instance's
`list-collapse` array length equals its board's Lane count.  Conjunct one:
the same-board shift (splice-out-then-splice-in on the instance array, with
the Lane relocated in the same mutation) preserves both the array length and
the Lane count.  Conjunct two: the cross-board source removal removes one
collapse entry and one Lane.  Conjunct three: the cross-board destination
insertion inserts one collapse entry and one Lane.  In each case the
array length ends exactly equal to the mutated board's Lane count, assuming
it matched before the move (and, for removal, that the moved Lane exists). -/
theorem laneMove_collapse_shape :
    (∀ (st : St) (file scopeId : String) (inst : Inst) (b : Board) (cs : List Bool)
        (f t0 : Nat) (l : Lane),
      st.managers file = some b →
      st.instances scopeId = some inst →
      inst.localListCollapse = some cs →
      cs.length = b.children.length →
      b.children[f]? = some l →
      ∃ b' inst' cs',
        (applyCall st ⟨file, .sameMove scopeId [f] [t0]⟩).managers file = some b' ∧
        (applyCall st ⟨file, .sameMove scopeId [f] [t0]⟩).instances scopeId = some inst' ∧
        inst'.localListCollapse = some cs' ∧
        cs'.length = b'.children.length ∧ b'.children.length = b.children.length) ∧
    (∀ (st : St) (file scopeId : String) (inst : Inst) (b : Board) (cs : List Bool)
        (f : Nat) (l : Lane),
      st.managers file = some b →
      st.instances scopeId = some inst →
      inst.localListCollapse = some cs →
      cs.length = b.children.length →
      b.children[f]? = some l →
      ∃ b' inst' cs',
        (applyCall st ⟨file, .crossRemove scopeId [f] l.id true⟩).managers file = some b' ∧
        (applyCall st ⟨file, .crossRemove scopeId [f] l.id true⟩).instances scopeId =
          some inst' ∧
        inst'.localListCollapse = some cs' ∧
        cs'.length = b'.children.length ∧ b'.children.length + 1 = b.children.length) ∧
    (∀ (st : St) (file dstScopeId srcScopeId : String) (inst : Inst) (b : Board)
        (cs : List Bool) (dragPath : List Nat) (t0 : Nat) (l : Lane),
      st.managers file = some b →
      st.instances dstScopeId = some inst →
      inst.localListCollapse = some cs →
      cs.length = b.children.length →
      ∃ b' inst' cs',
        (applyCall st ⟨file, .crossInsert dstScopeId srcScopeId dragPath [t0]
            (.lane l) true⟩).managers file = some b' ∧
        (applyCall st ⟨file, .crossInsert dstScopeId srcScopeId dragPath [t0]
            (.lane l) true⟩).instances dstScopeId = some inst' ∧
        inst'.localListCollapse = some cs' ∧
        cs'.length = b'.children.length ∧ b'.children.length = b.children.length + 1) := by
  refine ⟨?_, ?_, ?_⟩
  · intro st file scopeId inst b cs f t0 l hm hi hcs hlen hl
    have hf : f < b.children.length := by
      rw [List.getElem?_eq_some] at hl
      exact hl.1
    have hent : getEntityFromPath b [f] = some (.lane l) := by
      simp [getEntityFromPath, hl]
    have h1 : applyCall st ⟨file, .sameMove scopeId [f] [t0]⟩ =
        sameMoveApply st file scopeId inst b [f] [t0] := by
      unfold applyCall
      simp only [hm, hi]
    obtain ⟨bM, hbM, hbMlen⟩ := moveEntity_lane b f t0 l l
      (sameMoveTransform b [f] [t0]) hl rfl
    have h2 : sameMoveApply st file scopeId inst b [f] [t0] =
        setMgr (instSetListCollapse st scopeId
            (collapseShiftOp f (if f < t0 then t0 - 1 else t0))) file
          { bM with settings :=
              ⟨some (collapseShiftOp f (if f < t0 then t0 - 1 else t0) cs),
                bM.settings.newCardInsertionMethod⟩ } := by
      unfold sameMoveApply
      simp only [hent, hbM, instGetListCollapse_local st inst cs hcs]
      rfl
    rw [h1, h2]
    refine ⟨_, { inst with localListCollapse := inst.localListCollapse.map (collapseShiftOp f (if f < t0 then t0 - 1 else t0)) }, collapseShiftOp f (if f < t0 then t0 - 1 else t0) cs, setMgr_managers_self _ _ _, ?_, ?_, ?_, ?_⟩
    · show (instSetListCollapse st scopeId _).instances scopeId = _
      exact instSetListCollapse_self st scopeId inst _ hi
    · show (inst.localListCollapse.map _) = _
      rw [hcs]
      rfl
    · show (collapseShiftOp f (if f < t0 then t0 - 1 else t0) cs).length = bM.children.length
      rw [collapseShiftOp_length _ _ _ (by omega), hlen, hbMlen]
    · exact hbMlen
  · intro st file scopeId inst b cs f l hm hi hcs hlen hl
    have hf : f < b.children.length := by
      rw [List.getElem?_eq_some] at hl
      exact hl.1
    have hent : getEntityFromPath b [f] = some (.lane l) := by
      simp [getEntityFromPath, hl]
    have h1 : applyCall st ⟨file, .crossRemove scopeId [f] l.id true⟩ =
        crossRemoveApply st file scopeId b [f] l.id true := by
      unfold applyCall
      simp only [hm]
    have h2 : crossRemoveApply st file scopeId b [f] l.id true =
        setMgr (instSetListCollapse st scopeId (fun a => jsSpliceDel a f)) file
          { b with
              children := jsSpliceDel b.children f,
              settings := ⟨some (jsSpliceDel cs f), b.settings.newCardInsertionMethod⟩ } := by
      unfold crossRemoveApply
      simp only [hent, hi, instGetListCollapse_local st inst cs hcs]
      rw [if_neg (fun h => h rfl)]
      rfl
    rw [h1, h2]
    refine ⟨_, { inst with localListCollapse := inst.localListCollapse.map (fun a => jsSpliceDel a f) }, jsSpliceDel cs f, setMgr_managers_self _ _ _, ?_, ?_, ?_, ?_⟩
    · show (instSetListCollapse st scopeId _).instances scopeId = _
      exact instSetListCollapse_self st scopeId inst _ hi
    · show (inst.localListCollapse.map _) = _
      rw [hcs]
      rfl
    · show (jsSpliceDel cs f).length = (jsSpliceDel b.children f).length
      rw [jsSpliceDel_length _ _ (by omega), jsSpliceDel_length _ _ hf, hlen]
    · show (jsSpliceDel b.children f).length + 1 = b.children.length
      rw [jsSpliceDel_length _ _ hf]
      omega
  · intro st file dstScopeId srcScopeId inst b cs dragPath t0 l hm hi hcs hlen
    have h1 : applyCall st ⟨file, .crossInsert dstScopeId srcScopeId dragPath [t0]
          (.lane l) true⟩ =
        crossInsertApply st file dstScopeId srcScopeId b dragPath [t0] (.lane l) true := by
      unfold applyCall
      simp only [hm]
    have h2 : crossInsertApply st file dstScopeId srcScopeId b dragPath [t0] (.lane l) true =
        setMgr (instSetListCollapse st dstScopeId
            (fun a => jsSpliceIns a t0
              [(((st.instances srcScopeId).bind fun si => instGetListCollapse st si).bind
                  fun a => a[dragPath.getLastD 0]?).getD false])) file
          { b with
              children := jsSpliceIns b.children t0 [l],
              settings := ⟨some (jsSpliceIns cs t0
                [(((st.instances srcScopeId).bind fun si => instGetListCollapse st si).bind
                    fun a => a[dragPath.getLastD 0]?).getD false]),
                b.settings.newCardInsertionMethod⟩ } := by
      unfold crossInsertApply
      simp only [hi, instGetListCollapse_local st inst cs hcs]
      rfl
    rw [h1, h2]
    generalize (((st.instances srcScopeId).bind fun si => instGetListCollapse st si).bind
        fun a => a[dragPath.getLastD 0]?).getD false = v
    refine ⟨_, { inst with localListCollapse := inst.localListCollapse.map (fun a => jsSpliceIns a t0 [v]) }, jsSpliceIns cs t0 [v], setMgr_managers_self _ _ _, ?_, ?_, ?_, ?_⟩
    · show (instSetListCollapse st dstScopeId _).instances dstScopeId = _
      exact instSetListCollapse_self st dstScopeId inst _ hi
    · show (inst.localListCollapse.map _) = _
      rw [hcs]
      rfl
    · show (jsSpliceIns cs t0 _).length = (jsSpliceIns b.children t0 [l]).length
      rw [jsSpliceIns_length, jsSpliceIns_length, hlen]
      simp
    · show (jsSpliceIns b.children t0 [l]).length = b.children.length + 1
      rw [jsSpliceIns_length]
      simp

/-- Witness for `laneMove_collapse_shape`: a same-board lane shift on board
`X`, a cross-board lane removal from `X`, and a cross-board lane insertion
into `Y`, each at concrete indices. -/
theorem laneMove_collapse_shape_witness :
    (∃ b' inst' cs',
      (applyCall witSt ⟨"X", .sameMove "v1:::X" [0] [0]⟩).managers "X" = some b' ∧
      (applyCall witSt ⟨"X", .sameMove "v1:::X" [0] [0]⟩).instances "v1:::X" = some inst' ∧
      inst'.localListCollapse = some cs' ∧
      cs'.length = b'.children.length ∧ b'.children.length = witBoardX.children.length) ∧
    (∃ b' inst' cs',
      (applyCall witSt ⟨"X", .crossRemove "v1:::X" [0] "l1" true⟩).managers "X" = some b' ∧
      (applyCall witSt ⟨"X", .crossRemove "v1:::X" [0] "l1" true⟩).instances "v1:::X" =
        some inst' ∧
      inst'.localListCollapse = some cs' ∧
      cs'.length = b'.children.length ∧ b'.children.length + 1 = witBoardX.children.length) ∧
    (∃ b' inst' cs',
      (applyCall witSt ⟨"Y", .crossInsert "v2:::Y" "v1:::X" [0] [0]
          (.lane ⟨"l1", ⟨"Todo", false, none⟩, [witItemA, witItemB]⟩) true⟩).managers "Y" =
        some b' ∧
      (applyCall witSt ⟨"Y", .crossInsert "v2:::Y" "v1:::X" [0] [0]
          (.lane ⟨"l1", ⟨"Todo", false, none⟩, [witItemA, witItemB]⟩) true⟩).instances
        "v2:::Y" = some inst' ∧
      inst'.localListCollapse = some cs' ∧
      cs'.length = b'.children.length ∧ b'.children.length = witBoardY.children.length + 1) :=
  ⟨laneMove_collapse_shape.1 witSt "X" "v1:::X" ⟨"X", some [false]⟩ witBoardX [false] 0 0
      ⟨"l1", ⟨"Todo", false, none⟩, [witItemA, witItemB]⟩
      (by decide) (by decide) (by decide) (by decide) (by decide),
    laneMove_collapse_shape.2.1 witSt "X" "v1:::X" ⟨"X", some [false]⟩ witBoardX [false] 0
      ⟨"l1", ⟨"Todo", false, none⟩, [witItemA, witItemB]⟩
      (by decide) (by decide) (by decide) (by decide) (by decide),
    laneMove_collapse_shape.2.2 witSt "Y" "v2:::Y" "v1:::X" ⟨"Y", some [false]⟩ witBoardY
      [false] [0] 0 ⟨"l1", ⟨"Todo", false, none⟩, [witItemA, witItemB]⟩
      (by decide) (by decide) (by decide) (by decide)⟩

/-!
Section: instance view-state accessors (claims C4 and C10).

`BoardRendererInst` and `KanbanEmbedInst` carry the `viewSettings` map of one
instance (values abstracted to `Nat`).  `boardRendererSetViewState` embeds
`BoardRenderer.setViewState` (KanbanViewPlugin.ts lines 440-454): with an
updater it iterates `stateManager.rendererSet`, updating every renderer's own
copy; with a value it sets only this renderer's copy.  `kanbanEmbedSetViewState`
embeds `KanbanEmbed.setViewState` (KanbanEmbed.tsx lines 149-161): with an
updater it updates only this embed's own copy ("For global updates, only
update this embed"); with a value it sets only this embed's copy.  The
registry's set of registered instances is represented as a list with the
receiver at index `i`.
-/

structure BoardRendererInst where
  viewSettings : String → Option Nat

structure KanbanEmbedInst where
  viewSettings : String → Option Nat

def boardRendererSetViewState (rendererSet : List BoardRendererInst) (i : Nat) (key : String)
    (val : Option Nat) (upd : Option (Option Nat → Option Nat)) : List BoardRendererInst :=
  match upd with
  | some f =>
      rendererSet.map fun r =>
        { r with viewSettings := fun k => if k = key then f (r.viewSettings key)
            else r.viewSettings k }
  | none =>
    match val with
    | some v =>
        rendererSet.mapIdx fun j r =>
          if j = i then
            { r with viewSettings := fun k => if k = key then some v else r.viewSettings k }
          else r
    | none => rendererSet

def kanbanEmbedSetViewState (embeds : List KanbanEmbedInst) (i : Nat) (key : String)
    (val : Option Nat) (upd : Option (Option Nat → Option Nat)) : List KanbanEmbedInst :=
  match upd with
  | some f =>
      embeds.mapIdx fun j e =>
        if j = i then
          { e with viewSettings := fun k => if k = key then f (e.viewSettings key)
              else e.viewSettings k }
        else e
  | none =>
    match val with
    | some v =>
        embeds.mapIdx fun j e =>
          if j = i then
            { e with viewSettings := fun k => if k = key then some v else e.viewSettings k }
          else e
    | none => embeds

/-- Counterexample to claim C4 as stated: two embeds of the same registry,
each holding `some 0`; embed 0 calls `setViewState` with an updater that
returns `some 1`.  The claim demands every registered instance's copy be
updated, but `KanbanEmbed.setViewState` updates only the calling embed:
embed 1 still holds `some 0`. -/
theorem setViewState_updater_counterexample :
    ((kanbanEmbedSetViewState [⟨fun _ => some 0⟩, ⟨fun _ => some 0⟩] 0 "list-collapse" none
        (some fun _ => some 1)).map fun e => e.viewSettings "list-collapse") =
      [some 1, some 0] ∧
    ([some 1, some 0] : List (Option Nat)) ≠ [some 1, some 1] := by
  constructor
  · rfl
  · decide

/-- Claim C4 (corrected): `BoardRenderer.setViewState` with an updater makes
the registry apply the updater to every registered renderer's own copy of the
key independently, whereas `KanbanEmbed.setViewState` with an updater applies
it only to the calling embed's copy, leaving every other registered embed
untouched; with a direct value, both variants set only the calling instance's
copy.  Other keys are never touched. -/
theorem setViewState_semantics :
    (∀ (rs : List BoardRendererInst) (i : Nat) (key : String)
        (f : Option Nat → Option Nat),
      ((boardRendererSetViewState rs i key none (some f)).map
          fun r => r.viewSettings key) =
        rs.map fun r => f (r.viewSettings key)) ∧
    (∀ (rs : List BoardRendererInst) (i : Nat) (key : String)
        (f : Option Nat → Option Nat) (k : String), k ≠ key →
      ((boardRendererSetViewState rs i key none (some f)).map fun r => r.viewSettings k) =
        rs.map fun r => r.viewSettings k) ∧
    (∀ (es : List KanbanEmbedInst) (i : Nat) (key : String)
        (f : Option Nat → Option Nat) (j : Nat), j ≠ i →
      (kanbanEmbedSetViewState es i key none (some f))[j]? = es[j]?) ∧
    (∀ (es : List KanbanEmbedInst) (i : Nat) (key : String)
        (f : Option Nat → Option Nat) (e : KanbanEmbedInst), es[i]? = some e →
      ((kanbanEmbedSetViewState es i key none (some f))[i]?).map
          (fun e => e.viewSettings key) = some (f (e.viewSettings key))) ∧
    (∀ (rs : List BoardRendererInst) (i : Nat) (key : String) (v : Nat) (j : Nat), j ≠ i →
      (boardRendererSetViewState rs i key (some v) none)[j]? = rs[j]?) ∧
    (∀ (es : List KanbanEmbedInst) (i : Nat) (key : String) (v : Nat) (j : Nat), j ≠ i →
      (kanbanEmbedSetViewState es i key (some v) none)[j]? = es[j]?) ∧
    (∀ (rs : List BoardRendererInst) (i : Nat) (key : String) (v : Nat)
        (r : BoardRendererInst), rs[i]? = some r →
      ((boardRendererSetViewState rs i key (some v) none)[i]?).map
        (fun r => r.viewSettings key) = some (some v)) ∧
    (∀ (es : List KanbanEmbedInst) (i : Nat) (key : String) (v : Nat)
        (e : KanbanEmbedInst), es[i]? = some e →
      ((kanbanEmbedSetViewState es i key (some v) none)[i]?).map
        (fun e => e.viewSettings key) = some (some v)) := by
  refine ⟨?_, ?_, ?_, ?_, ?_, ?_, ?_, ?_⟩
  · intro rs i key f
    unfold boardRendererSetViewState
    rw [List.map_map]
    exact List.map_congr_left fun r _ => by simp
  · intro rs i key f k hk
    unfold boardRendererSetViewState
    rw [List.map_map]
    exact List.map_congr_left fun r _ => by simp [hk]
  · intro es i key f j hj
    unfold kanbanEmbedSetViewState
    rw [List.getElem?_mapIdx]
    cases es[j]? with
    | none => rfl
    | some e => simp [hj]
  · intro es i key f e he
    unfold kanbanEmbedSetViewState
    rw [List.getElem?_mapIdx, he]
    simp
  · intro rs i key v j hj
    unfold boardRendererSetViewState
    rw [List.getElem?_mapIdx]
    cases rs[j]? with
    | none => rfl
    | some e => simp [hj]
  · intro es i key v j hj
    unfold kanbanEmbedSetViewState
    rw [List.getElem?_mapIdx]
    cases es[j]? with
    | none => rfl
    | some e => simp [hj]
  · intro rs i key v r hr
    unfold boardRendererSetViewState
    rw [List.getElem?_mapIdx, hr]
    simp
  · intro es i key v e he
    unfold kanbanEmbedSetViewState
    rw [List.getElem?_mapIdx, he]
    simp

/-- Witness for `setViewState_semantics` at concrete instance lists. -/
theorem setViewState_semantics_witness :
    ((boardRendererSetViewState [⟨fun _ => some 0⟩, ⟨fun _ => some 2⟩] 0 "k" none
        (some fun x => x.map (· + 1))).map fun r => r.viewSettings "k") =
      [⟨fun _ => some 0⟩, ⟨fun _ => some 2⟩].map
        (fun r : BoardRendererInst => (fun x : Option Nat => x.map (· + 1)) (r.viewSettings "k")) ∧
    (kanbanEmbedSetViewState [⟨fun _ => some 0⟩, ⟨fun _ => some 0⟩] 0 "k" none
        (some fun _ => some 1))[1]? = [(⟨fun _ => some 0⟩ : KanbanEmbedInst), ⟨fun _ => some 0⟩][1]? ∧
    ((kanbanEmbedSetViewState [⟨fun _ => some 0⟩, ⟨fun _ => some 0⟩] 0 "k" none
        (some fun _ => some 1))[0]?).map (fun e => e.viewSettings "k") =
      some ((fun _ : Option Nat => some 1) ((⟨fun _ => some 0⟩ : KanbanEmbedInst).viewSettings "k")) ∧
    ((boardRendererSetViewState [⟨fun _ => some 0⟩, ⟨fun _ => some 2⟩] 0 "k" (some 5)
        none)[0]?).map (fun r => r.viewSettings "k") = some (some 5) ∧
    ((kanbanEmbedSetViewState [⟨fun _ => some 0⟩, ⟨fun _ => some 0⟩] 0 "k" (some 5)
        none)[0]?).map (fun e => e.viewSettings "k") = some (some 5) :=
  ⟨setViewState_semantics.1 _ 0 "k" _,
    setViewState_semantics.2.2.1 _ 0 "k" _ 1 (by decide),
    setViewState_semantics.2.2.2.1 _ 0 "k" _ _ rfl,
    setViewState_semantics.2.2.2.2.2.2.1 _ 0 "k" 5 _ rfl,
    setViewState_semantics.2.2.2.2.2.2.2 _ 0 "k" 5 _ rfl⟩

/-!
Section: instance `getViewState` (claim C10).

`kanbanEmbedGetViewState` embeds `KanbanEmbed.getViewState` (KanbanEmbed.tsx
lines 133-137): `const settingVal = this.plugin.stateManagers.get(this.file)?.
getSetting(key); return this.viewSettings[key] ?? settingVal` — optional
chaining makes a missing registry yield `undefined`.
`boardRendererGetViewState` embeds `BoardRenderer.getViewState`
(KanbanViewPlugin.ts lines 430-433): `const settingVal =
this.stateManager.getSetting(key)` has no optional chaining, so when the
renderer's `stateManager` is unset the property access throws a `TypeError`,
modelled by `JsOutcome.typeError`.
-/

structure SettingsMap where
  settings : String → Option Nat

/-- Modelled from the spec: `StateManager.getSetting` — look the key up in
the board's persisted settings. -/
def smGetSetting (sm : SettingsMap) (key : String) : Option Nat := sm.settings key

def kanbanEmbedGetViewState (stateManagers : String → Option SettingsMap) (file : String)
    (viewSettings : String → Option Nat) (key : String) : Option Nat :=
  let settingVal := (stateManagers file).bind fun sm => smGetSetting sm key
  match viewSettings key with
  | some v => some v
  | none => settingVal

inductive JsOutcome (α : Type) where
  | ok (a : α)
  | typeError
  deriving DecidableEq, Repr

def boardRendererGetViewState (stateManager : Option SettingsMap)
    (viewSettings : String → Option Nat) (key : String) : JsOutcome (Option Nat) :=
  match stateManager with
  | none => .typeError
  | some sm =>
      .ok (match viewSettings key with
        | some v => some v
        | none => smGetSetting sm key)

/-- Counterexample to claim C10 as stated: a `BoardRenderer` whose
`stateManager` is not set (no registry bound) throws a `TypeError` from
`this.stateManager.getSetting(key)` instead of returning an undefined/empty
result. -/
theorem getViewState_counterexample :
    boardRendererGetViewState none (fun _ => none) "list-collapse" = .typeError ∧
    JsOutcome.typeError ≠ (.ok none : JsOutcome (Option Nat)) := by
  exact ⟨rfl, by simp⟩

/-- Claim C10 (corrected): `KanbanEmbed.getViewState` returns the instance's
own local entry whenever it is defined and otherwise falls back to the
registry's persisted setting, returning an empty result and never throwing
when no registry exists for the instance's file.  `BoardRenderer.getViewState`
behaves the same way only when its `stateManager` is set; with it unset the
eager `this.stateManager.getSetting(key)` access throws, even when the local
entry is defined. -/
theorem getViewState_fallback :
    (∀ (sms : String → Option SettingsMap) (file : String) (vs : String → Option Nat)
        (key : String) (v : Nat), vs key = some v →
      kanbanEmbedGetViewState sms file vs key = some v) ∧
    (∀ (sms : String → Option SettingsMap) (file : String) (vs : String → Option Nat)
        (key : String), vs key = none →
      kanbanEmbedGetViewState sms file vs key = (sms file).bind fun sm => smGetSetting sm key) ∧
    (∀ (sms : String → Option SettingsMap) (file : String) (vs : String → Option Nat)
        (key : String), sms file = none → vs key = none →
      kanbanEmbedGetViewState sms file vs key = none) ∧
    (∀ (sm : SettingsMap) (vs : String → Option Nat) (key : String) (v : Nat),
      vs key = some v → boardRendererGetViewState (some sm) vs key = .ok (some v)) ∧
    (∀ (sm : SettingsMap) (vs : String → Option Nat) (key : String), vs key = none →
      boardRendererGetViewState (some sm) vs key = .ok (smGetSetting sm key)) ∧
    (∀ (vs : String → Option Nat) (key : String),
      boardRendererGetViewState none vs key = .typeError) := by
  refine ⟨?_, ?_, ?_, ?_, ?_, ?_⟩
  · intro sms file vs key v hv
    unfold kanbanEmbedGetViewState
    rw [hv]
  · intro sms file vs key hv
    unfold kanbanEmbedGetViewState
    rw [hv]
  · intro sms file vs key hsm hv
    unfold kanbanEmbedGetViewState
    rw [hv, hsm]
    rfl
  · intro sm vs key v hv
    unfold boardRendererGetViewState
    rw [hv]
  · intro sm vs key hv
    unfold boardRendererGetViewState
    rw [hv]
  · intro vs key
    rfl

/-- Witness for `getViewState_fallback` at concrete maps. -/
theorem getViewState_fallback_witness :
    kanbanEmbedGetViewState (fun _ => none) "F.md" (fun _ => some 7) "k" = some 7 ∧
    kanbanEmbedGetViewState (fun _ => some ⟨fun _ => some 9⟩) "F.md" (fun _ => none) "k" =
      ((fun _ : String => some (⟨fun _ => some 9⟩ : SettingsMap)) "F.md").bind
        (fun sm => smGetSetting sm "k") ∧
    kanbanEmbedGetViewState (fun _ => none) "F.md" (fun _ => none) "k" = none ∧
    boardRendererGetViewState (some ⟨fun _ => some 9⟩) (fun _ => some 7) "k" = .ok (some 7) ∧
    boardRendererGetViewState (some ⟨fun _ => some 9⟩) (fun _ => none) "k" =
      .ok (smGetSetting ⟨fun _ => some 9⟩ "k") ∧
    boardRendererGetViewState none (fun _ => none) "k" = .typeError :=
  ⟨getViewState_fallback.1 _ "F.md" _ "k" 7 rfl,
    getViewState_fallback.2.1 _ "F.md" _ "k" rfl,
    getViewState_fallback.2.2.1 _ "F.md" _ "k" rfl rfl,
    getViewState_fallback.2.2.2.1 _ _ "k" 7 rfl,
    getViewState_fallback.2.2.2.2.1 _ _ "k" rfl,
    getViewState_fallback.2.2.2.2.2 _ "k"⟩
